import Mathlib

/-!
Verification development for the APTEEN wireless-sensor-network routing
simulator (`router/apteen.py` layered on the LEACH-Prim base protocol).

The repository code under `src/router/apteen.py` is embedded faithfully:
Python floats become `ℚ`, Python dicts become total or `Option`-valued maps,
and the mutating methods become explicit state-passing functions on the
`APTEEN` record.  The base classes (`router.Node`, `router.leach.LEACHPrim`)
are not part of the inspected sources; the few operations of theirs that the
APTEEN layer calls (energy debits, cluster accessors, aggregation, the LEACH
setup) are modelled from the specification and marked as such.
-/

namespace Router

/-- Sensor/sink identity.  `router.Node` objects are compared by identity in
the Python code; we use natural-number identifiers. -/
abbrev Node := Nat

/-- Modelled from the spec: the pluggable radio energy-cost model of
`router.Node` (not under `src/`).  Each operation computes a cost from the
message size (and for single-cast the sender/destination pair, standing in
for distance) which is then debited from the node, clamped at zero. -/
structure RadioModel where
  costSinglecast : ℚ → Node → Node → ℚ
  costBroadcast : ℚ → Nat → ℚ
  costRecvBroadcast : ℚ → ℚ

/-- The APTEEN protocol state: the fields of `APTEEN.__init__` together with
the inherited LEACH state that the APTEEN layer reads.  The cluster
structure (`clusters` / `get_cluster_heads` / `get_cluster_members`) lives in
the missing `router.leach` base class and is modelled from the spec as a
head list plus a members map; `rounds_since_transmission` is a
`defaultdict(int)` and is modelled as a total map with default `0`. -/
@[ext] structure APTEEN where
  sink : Node
  nonSinks : List Node
  /-- `energy_current` of each node (`router.Node`, modelled from the spec). -/
  energy : Node → ℚ
  /-- Modelled from the spec: `get_cluster_heads()` — the keys of `clusters`. -/
  clusterHeads : List Node
  /-- Modelled from the spec: `get_cluster_members(head)` — the ordered
  members of `head`'s cluster, including child heads routed through it. -/
  clusterMembers : Node → List Node
  radio : RadioModel
  size_control : ℚ
  size_data : ℚ
  energy_agg : ℚ
  agg_rate : ℚ
  hard_threshold : ℚ
  soft_threshold : ℚ
  count_time : ℤ
  cluster_parameters : Node → Option (ℚ × ℚ × ℤ)
  data_generator : Node → Nat → ℚ
  last_values : Node → Option ℚ
  last_transmission : Node → Option ℚ
  rounds_since_transmission : Node → ℤ
  parameters_broadcasted : Node → Option Bool
  round : Nat

/-- `node.is_alive()`: modelled from the spec — alive iff `energy_current > 0`. -/
def is_alive (s : APTEEN) (n : Node) : Bool :=
  decide (0 < s.energy n)

/-- Clamp at zero, written with an `if` so that it evaluates on concrete
rationals. -/
def clamp0 (x : ℚ) : ℚ :=
  if x < 0 then 0 else x

/-- Modelled from the spec: the energy debit every `router.Node` operation
performs — subtract the cost, clamp at zero, and do nothing on a dead node. -/
def debit (s : APTEEN) (n : Node) (cost : ℚ) : APTEEN :=
  if 0 < s.energy n then
    { s with energy := fun m => if m = n then clamp0 (s.energy n - cost) else s.energy m }
  else s

/-- Modelled from the spec: `member.recv_broadcast(size)` — the receiver-side
charge of a broadcast. -/
def recv_broadcast (s : APTEEN) (n : Node) (size : ℚ) : APTEEN :=
  debit s n (s.radio.costRecvBroadcast size)

/-- Modelled from the spec: `node.broadcast(size, fanout)` — the sender is
charged once for the fan-out broadcast. -/
def node_broadcast (s : APTEEN) (n : Node) (size : ℚ) (fanout : Nat) : APTEEN :=
  debit s n (s.radio.costBroadcast size fanout)

/-- Modelled from the spec: `member.singlecast(size, dest)` — the sender is
charged a single-cast cost determined by the size and the endpoints. -/
def singlecast (s : APTEEN) (sender : Node) (size : ℚ) (dest : Node) : APTEEN :=
  debit s sender (s.radio.costSinglecast size sender dest)

/-- Modelled from the spec: `LEACH.aggregation(head, size)` — the head pays
`energy_agg` per input unit and the payload is reduced by `agg_rate`. -/
def aggregation (s : APTEEN) (head : Node) (size : ℚ) : APTEEN × ℚ :=
  (debit s head (s.energy_agg * size), s.agg_rate * size)

/-- Modelled from the spec: `is_cluster_head(n)` — membership in the current
head set. -/
def is_cluster_head (s : APTEEN) (n : Node) : Bool :=
  decide (n ∈ s.clusterHeads)

/-- Modelled from the spec: the `alive_non_sinks` property — the live subset
of `non_sinks`. -/
def alive_non_sinks (s : APTEEN) : List Node :=
  s.nonSinks.filter (fun n => is_alive s n)

/-- `APTEEN.get_parameters_for_node`: scan the cluster heads for the first
one whose members contain `node`; if that cluster has an override return it,
otherwise (`break`, or no containing head) fall back to the globals. -/
def get_parameters_for_node (s : APTEEN) (node : Node) : ℚ × ℚ × ℤ :=
  match s.clusterHeads.find? (fun head => decide (node ∈ s.clusterMembers head)) with
  | some head =>
    match s.cluster_parameters head with
    | some p => p
    | none => (s.hard_threshold, s.soft_threshold, s.count_time)
  | none => (s.hard_threshold, s.soft_threshold, s.count_time)

/-- `APTEEN.should_transmit`: the TEEN decision logic. -/
def should_transmit (s : APTEEN) (node : Node) (current_value : ℚ) : Bool :=
  let p := get_parameters_for_node s node
  if current_value < p.1 then false
  else
    match s.last_transmission node with
    | none => true
    | some last =>
      if p.2.1 ≤ |current_value - last| then true
      else if p.2.2 ≤ s.rounds_since_transmission node then true
      else false

/-- `APTEEN.should_transmit` in explicit state-passing form: the same body
with the protocol state threaded through every step, so that the absence of
mutation is visible in the type. -/
def should_transmit_run (s : APTEEN) (node : Node) (current_value : ℚ) :
    Bool × APTEEN :=
  let p := get_parameters_for_node s node
  if current_value < p.1 then (false, s)
  else
    match s.last_transmission node with
    | none => (true, s)
    | some last =>
      if p.2.1 ≤ |current_value - last| then (true, s)
      else if p.2.2 ≤ s.rounds_since_transmission node then (true, s)
      else (false, s)

/-- The member loop body of `APTEEN.broadcast_teen_parameters`: each alive
member is charged a control-size receive. -/
def member_recv_step (st : APTEEN) (member : Node) : APTEEN :=
  if is_alive st member = true then recv_broadcast st member st.size_control else st

/-- `APTEEN.broadcast_teen_parameters`: if the head has members, charge each
alive member a control-size receive, charge the head one fan-out broadcast,
and record the head in `parameters_broadcasted`.  (The `(HT, ST, TC)` tuple
the Python code reads only determines the message contents, never the state.) -/
def broadcast_teen_parameters (s : APTEEN) (cluster_head : Node) : APTEEN :=
  let members := s.clusterMembers cluster_head
  if members = [] then s
  else
    let s1 := members.foldl member_recv_step s
    let s2 := node_broadcast s1 cluster_head s1.size_control members.length
    { s2 with parameters_broadcasted :=
        fun h => if h = cluster_head then some true else s2.parameters_broadcasted h }

/-- `APTEEN.set_cluster_parameters`: install a per-cluster override and drop
the head's broadcast flag. -/
def set_cluster_parameters (s : APTEEN) (cluster_head : Node)
    (hard_threshold soft_threshold : ℚ) (count_time : ℤ) : APTEEN :=
  { s with
    cluster_parameters := fun h =>
      if h = cluster_head then some (hard_threshold, soft_threshold, count_time)
      else s.cluster_parameters h,
    parameters_broadcasted := fun h =>
      if h = cluster_head then none else s.parameters_broadcasted h }

/-- The loop body of `APTEEN.update_parameters_from_query`: the sink's query
reaches every alive non-sink cluster head as one control-message receive. -/
def query_charge_step (st : APTEEN) (head : Node) : APTEEN :=
  if head ≠ st.sink ∧ is_alive st head = true then
    recv_broadcast st head st.size_control
  else st

/-- `APTEEN.update_parameters_from_query`: overwrite whichever globals are
provided, clear every broadcast flag, then charge each alive non-sink head a
control-message receive for the sink's query. -/
def update_parameters_from_query (s : APTEEN)
    (hard_threshold soft_threshold : Option ℚ) (count_time : Option ℤ) : APTEEN :=
  let s1 : APTEEN :=
    { s with
      hard_threshold := hard_threshold.getD s.hard_threshold,
      soft_threshold := soft_threshold.getD s.soft_threshold,
      count_time := count_time.getD s.count_time,
      parameters_broadcasted := fun _ => none }
  s1.clusterHeads.foldl query_charge_step s1

/-- The broadcast loop body of `APTEEN.set_up_phase`. -/
def setup_broadcast_step (st : APTEEN) (head : Node) : APTEEN :=
  if head ≠ st.sink ∧ is_alive st head = true then
    broadcast_teen_parameters st head
  else st

/-- `APTEEN.set_up_phase`: the inherited LEACH clustering (modelled from the
spec — `router.leach` is not under `src/` — as the wholesale replacement of
the cluster structure by the new round's clustering, passed in as the new
head list and members map) followed by the TEEN parameter broadcast from
every alive non-sink head. -/
def set_up_phase (s : APTEEN) (newHeads : List Node)
    (newMembers : Node → List Node) : APTEEN :=
  let s0 : APTEEN := { s with clusterHeads := newHeads, clusterMembers := newMembers }
  s0.clusterHeads.foldl setup_broadcast_step s0

/-- The loop body of `APTEEN.recursive_gathering_with_teen` for one member.
The accumulator carries `(state, size_agg, size_not_agg, has_any_data)`
exactly as the Python locals; `recur` is the recursive call on child heads. -/
def gather_member_step (recur : APTEEN → Node → ℚ → APTEEN × ℚ × Bool)
    (head : Node) (size : ℚ) (acc : APTEEN × ℚ × ℚ × Bool)
    (member : Node) : APTEEN × ℚ × ℚ × Bool :=
  let st := acc.1
  if is_alive st member = true then
    if is_cluster_head st member = true then
      let r := recur st member size
      if r.2.2 = true then
        (singlecast r.1 member r.2.1 head, acc.2.1 + r.2.1, acc.2.2.1, true)
      else (r.1, acc.2.1, acc.2.2.1, acc.2.2.2)
    else
      match st.last_values member with
      | some current_value =>
        if should_transmit st member current_value = true then
          let st1 := singlecast st member size head
          ({ st1 with
              last_transmission := fun m =>
                if m = member then some current_value else st1.last_transmission m,
              rounds_since_transmission := fun m =>
                if m = member then 0 else st1.rounds_since_transmission m },
            acc.2.1, acc.2.2.1 + size, true)
        else acc
      | none => acc
  else acc

/-- The member loop of `APTEEN.recursive_gathering_with_teen`, with explicit
fuel for the recursion over the head tree (the Python recursion terminates
because the membership relation is acyclic; every theorem below supplies
enough fuel for the topology at hand). -/
def gatherFold (recur : APTEEN → Node → ℚ → APTEEN × ℚ × Bool)
    (head : Node) (size : ℚ) (members : List Node)
    (init : APTEEN × ℚ × ℚ × Bool) : APTEEN × ℚ × ℚ × Bool :=
  members.foldl (gather_member_step recur head size) init

/-- `APTEEN.recursive_gathering_with_teen`: returns the final state together
with `(aggregated_size, has_data)`. -/
def recursive_gathering_with_teen (fuel : Nat) (s : APTEEN) (head : Node)
    (size : ℚ) : APTEEN × ℚ × Bool :=
  match fuel with
  | 0 => (s, 0, false)
  | fuel + 1 =>
    let members := s.clusterMembers head
    let size_not_agg : ℚ := if head ≠ s.sink then size else 0
    let r := gatherFold (recursive_gathering_with_teen fuel) head size members
      (s, 0, size_not_agg, false)
    if r.2.2.2 = true ∨ 0 < r.2.2.1 then
      let a := aggregation r.1 head r.2.2.1
      (a.1, a.2 + r.2.1, true)
    else (r.1, 0, false)

/-- The sensing loop body of `APTEEN.steady_state_phase`: the node senses a
fresh value into `last_values` and has its withhold counter bumped. -/
def sense_step (st : APTEEN) (node : Node) : APTEEN :=
  let current_value := st.data_generator node st.round
  { st with
    last_values := fun m =>
      if m = node then some current_value else st.last_values m,
    rounds_since_transmission := fun m =>
      if m = node then st.rounds_since_transmission node + 1
      else st.rounds_since_transmission m }

/-- The sensing loop of `APTEEN.steady_state_phase`: every alive non-sink
senses a fresh value into `last_values` and has its withhold counter bumped. -/
def sense_phase (s : APTEEN) : APTEEN :=
  (alive_non_sinks s).foldl sense_step s

/-- `APTEEN.steady_state_phase`: return unchanged when no clusters exist,
otherwise sense at every alive non-sink and run the hierarchical gathering
from the sink at the data-message size. -/
def steady_state_phase (fuel : Nat) (s : APTEEN) : APTEEN :=
  if s.clusterHeads = [] then s
  else (recursive_gathering_with_teen fuel (sense_phase s) s.sink s.size_data).1


/-! ### Concrete witness networks -/

/-- A cost-free radio model (the cost model is a pluggable parameter of the
simulator; witnesses that are about decision logic instantiate it at zero). -/
def zeroRadio : RadioModel where
  costSinglecast := fun _ _ _ => 0
  costBroadcast := fun _ _ => 0
  costRecvBroadcast := fun _ => 0

/-- A small concrete network used by witnesses: sink `0`, cluster head `1`,
plain member `2`, default TEEN parameters. -/
def W : APTEEN where
  sink := 0
  nonSinks := [1, 2]
  energy := fun n => if n ≤ 2 then 1 else 0
  clusterHeads := [1]
  clusterMembers := fun n => if n = 0 then [1] else if n = 1 then [2] else []
  radio := zeroRadio
  size_control := 128
  size_data := 4096
  energy_agg := 0
  agg_rate := 3/5
  hard_threshold := 50
  soft_threshold := 2
  count_time := 10
  cluster_parameters := fun _ => none
  data_generator := fun _ _ => 55
  last_values := fun _ => none
  last_transmission := fun _ => none
  rounds_since_transmission := fun _ => 0
  parameters_broadcasted := fun _ => none
  round := 0

/-! ### C1: the TEEN transmission decision -/

/-- **C1.** For every node and sensed value `v`, `should_transmit` returns
`false` whenever `v` is strictly below the resolved hard threshold `HT`
(`v = HT` counts as important), and when `HT ≤ v` it returns `true` iff the
node has never transmitted, or the change from its last transmitted value is
at least `ST`, or its withhold counter has reached `TC`. -/
theorem c1_should_transmit_decision (s : APTEEN) (n : Node) (v ht st : ℚ)
    (tc : ℤ) (hp : get_parameters_for_node s n = (ht, st, tc)) :
    should_transmit s n v = true ↔
      ht ≤ v ∧ (s.last_transmission n = none
        ∨ (∃ w, s.last_transmission n = some w ∧ st ≤ |v - w|)
        ∨ tc ≤ s.rounds_since_transmission n) := by
  unfold should_transmit
  rw [hp]
  by_cases hlt : v < ht
  · simp [hlt, not_le.mpr hlt]
  · rw [if_neg hlt]
    cases hl : s.last_transmission n with
    | none => simp [not_lt.mp hlt, hl]
    | some w =>
      by_cases hst : st ≤ |v - w|
      · simp [hst, not_lt.mp hlt, hl]
      · by_cases htc : tc ≤ s.rounds_since_transmission n
        · simp [hst, htc, not_lt.mp hlt, hl]
        · simp [hst, htc, hl]

/-- Witness for C1: in the concrete network `W` (with `HT = 50` and node `2`
never transmitted), sensing `50.0` transmits and sensing `49.999` does not. -/
theorem c1_should_transmit_decision_witness :
    should_transmit W 2 50 = true ∧ should_transmit W 2 (49999/1000) = false := by
  constructor
  · exact (c1_should_transmit_decision W 2 50 50 2 10 (by decide)).mpr
      ⟨by norm_num, Or.inl (by decide)⟩
  · cases hb : should_transmit W 2 (49999/1000) with
    | false => rfl
    | true =>
      have h := (c1_should_transmit_decision W 2 (49999/1000) 50 2 10 (by decide)).mp hb
      have hle := h.1
      norm_num at hle

/-! ### Basic lemmas about the energy debit -/

lemma clamp0_le {y z : ℚ} (h1 : y ≤ z) (h2 : 0 ≤ z) : clamp0 y ≤ z := by
  unfold clamp0
  split
  · exact h2
  · exact h1

lemma debit_dead {s : APTEEN} {n : Node} (h : ¬ 0 < s.energy n) (c : ℚ) :
    debit s n c = s := by
  unfold debit
  exact if_neg h

lemma debit_shape (s : APTEEN) (n : Node) (c : ℚ) :
    ∃ e, debit s n c = { s with energy := e } := by
  unfold debit
  split
  · exact ⟨_, rfl⟩
  · exact ⟨s.energy, rfl⟩

lemma debit_energy_ne {m n : Node} (s : APTEEN) (c : ℚ) (h : m ≠ n) :
    (debit s n c).energy m = s.energy m := by
  unfold debit
  split
  · simp [h]
  · rfl

lemma debit_energy_alive {s : APTEEN} {n : Node} (h : 0 < s.energy n) (c : ℚ) :
    (debit s n c).energy n = clamp0 (s.energy n - c) := by
  unfold debit
  rw [if_pos h]
  simp

lemma debit_energy_le {s : APTEEN} {n : Node} {c : ℚ} (hc : 0 ≤ c) (m : Node) :
    (debit s n c).energy m ≤ s.energy m := by
  unfold debit
  split
  · rename_i halive
    by_cases hm : m = n
    · subst hm
      simp only [if_pos rfl]
      exact clamp0_le (by linarith) (le_of_lt halive)
    · simp [hm]
  · exact le_refl _

lemma debit_last_transmission (s : APTEEN) (n : Node) (c : ℚ) :
    (debit s n c).last_transmission = s.last_transmission := by
  obtain ⟨e, he⟩ := debit_shape s n c
  rw [he]

lemma debit_rounds (s : APTEEN) (n : Node) (c : ℚ) :
    (debit s n c).rounds_since_transmission = s.rounds_since_transmission := by
  obtain ⟨e, he⟩ := debit_shape s n c
  rw [he]

/-! ### C4: purity of the transmission decision -/

/-- **C4.** `should_transmit` is a pure decision function: its state-passing
form returns the input state untouched (so the tracking maps and every
node's energy are unchanged by evaluating it), and its result is determined
by the cluster structure, the resolved parameters and the tracking state
alone — replacing the energies, sensed values, broadcast flags, generator,
radio model, sizes, node lists or round counter does not change the
decision.  Tracking state is mutated only at the transmitting branch of the
gathering loop, never here. -/
theorem c4_should_transmit_pure (s : APTEEN) (e : Node → ℚ)
    (lv : Node → Option ℚ) (pb : Node → Option Bool) (g : Node → Nat → ℚ)
    (rd : RadioModel) (ns : List Node) (sk : Node) (sc sd ea ar : ℚ) (r : Nat)
    (n : Node) (v : ℚ) :
    should_transmit_run s n v = (should_transmit s n v, s) ∧
    should_transmit
      { s with energy := e, last_values := lv, parameters_broadcasted := pb,
               data_generator := g, radio := rd, nonSinks := ns, sink := sk,
               size_control := sc, size_data := sd, energy_agg := ea,
               agg_rate := ar, round := r } n v = should_transmit s n v := by
  constructor
  · unfold should_transmit should_transmit_run
    by_cases h1 : v < (get_parameters_for_node s n).1
    · simp [h1]
    · simp only [if_neg h1]
      cases h2 : s.last_transmission n with
      | none => rfl
      | some last =>
        by_cases h3 : (get_parameters_for_node s n).2.1 ≤ |v - last|
        · simp [h3]
        · simp only [if_neg h3]
          by_cases h4 :
              (get_parameters_for_node s n).2.2 ≤ s.rounds_since_transmission n
          · simp [h4]
          · simp [h4]
  · rfl

/-! ### C5: per-cluster parameter resolution -/

lemma find?_eq_of_mem_unique {p : Node → Bool} {l : List Node} {h : Node}
    (hmem : h ∈ l) (hp : p h = true)
    (huniq : ∀ x ∈ l, p x = true → x = h) :
    l.find? p = some h := by
  induction l with
  | nil => cases hmem
  | cons a t ih =>
    by_cases ha : p a = true
    · have hah : a = h := huniq a (List.mem_cons_self a t) ha
      rw [List.find?_cons_of_pos _ ha, hah]
    · have hah : a ≠ h := fun hcontra => ha (hcontra ▸ hp)
      have hmem2 : h ∈ t := by
        rcases List.mem_cons.mp hmem with h1 | h1
        · exact absurd h1.symm hah
        · exact h1
      rw [List.find?_cons_of_neg _ (by simpa using ha)]
      exact ih hmem2 (fun x hx hpx => huniq x (List.mem_cons_of_mem a hx) hpx)

/-- **C5.** `get_parameters_for_node` returns the override stored for the
node's cluster head whenever one exists, regardless of the current globals;
for a node whose head has no override, and for a node in no cluster, it
returns the global `(hard_threshold, soft_threshold, count_time)`; and as
soon as the head's override is deleted it returns the globals again. -/
theorem c5_get_parameters_resolution (s : APTEEN) (n h : Node) :
    (h ∈ s.clusterHeads → n ∈ s.clusterMembers h →
      (∀ h2 ∈ s.clusterHeads, n ∈ s.clusterMembers h2 → h2 = h) →
      ((∀ p, s.cluster_parameters h = some p → get_parameters_for_node s n = p) ∧
       (s.cluster_parameters h = none →
         get_parameters_for_node s n =
           (s.hard_threshold, s.soft_threshold, s.count_time)) ∧
       get_parameters_for_node
         { s with cluster_parameters :=
            fun x => if x = h then none else s.cluster_parameters x } n =
           (s.hard_threshold, s.soft_threshold, s.count_time)))
    ∧ ((∀ h2 ∈ s.clusterHeads, n ∉ s.clusterMembers h2) →
        get_parameters_for_node s n =
          (s.hard_threshold, s.soft_threshold, s.count_time)) := by
  constructor
  · intro hh hm hu
    have hfind : s.clusterHeads.find?
        (fun head => decide (n ∈ s.clusterMembers head)) = some h :=
      find?_eq_of_mem_unique hh (by simpa using hm)
        (fun x hx hpx => hu x hx (by simpa using hpx))
    refine ⟨?_, ?_, ?_⟩
    · intro p hp
      unfold get_parameters_for_node
      rw [hfind]
      simp [hp]
    · intro hp
      unfold get_parameters_for_node
      rw [hfind]
      simp [hp]
    · unfold get_parameters_for_node
      rw [show ({ s with cluster_parameters :=
            fun x => if x = h then none else s.cluster_parameters x } : APTEEN).clusterHeads
          = s.clusterHeads from rfl]
      rw [hfind]
      simp
  · intro hnone
    have hfind : s.clusterHeads.find?
        (fun head => decide (n ∈ s.clusterMembers head)) = none := by
      rw [List.find?_eq_none]
      intro x hx
      simpa using hnone x hx
    unfold get_parameters_for_node
    rw [hfind]

/-- Witness for C5 at the concrete network `W`: node `2` belongs to head `1`;
with the override `(30, 1, 5)` installed the resolution returns it even
though the globals are `(50, 2, 10)`, and after removal it returns the
globals again. -/
theorem c5_get_parameters_resolution_witness :
    get_parameters_for_node (set_cluster_parameters W 1 30 1 5) 2 = (30, 1, 5) ∧
    get_parameters_for_node W 2 = (50, 2, 10) := by
  constructor
  · exact ((c5_get_parameters_resolution (set_cluster_parameters W 1 30 1 5) 2 1).1
      (by decide) (by decide) (by decide)).1 (30, 1, 5) (by decide)
  · exact ((c5_get_parameters_resolution W 2 1).1
      (by decide) (by decide) (by decide)).2.1 (by decide)

/-! ### The query charge loop -/

lemma query_charge_step_shape (st : APTEEN) (a : Node) :
    ∃ e, query_charge_step st a = { st with energy := e } := by
  unfold query_charge_step recv_broadcast
  split
  · exact debit_shape st a _
  · exact ⟨st.energy, rfl⟩

lemma query_fold_shape (l : List Node) : ∀ st : APTEEN,
    ∃ e, l.foldl query_charge_step st = { st with energy := e } := by
  induction l with
  | nil => exact fun st => ⟨st.energy, rfl⟩
  | cons a t ih =>
    intro st
    obtain ⟨e1, h1⟩ := query_charge_step_shape st a
    obtain ⟨e2, h2⟩ := ih (query_charge_step st a)
    refine ⟨e2, ?_⟩
    rw [List.foldl_cons, h2, h1]

lemma query_charge_step_energy (st : APTEEN) (a m : Node) :
    (query_charge_step st a).energy m =
      if m = a ∧ a ≠ st.sink ∧ 0 < st.energy a
      then clamp0 (st.energy a - st.radio.costRecvBroadcast st.size_control)
      else st.energy m := by
  unfold query_charge_step recv_broadcast
  by_cases hg : a ≠ st.sink ∧ is_alive st a = true
  · rw [if_pos hg]
    have halive : 0 < st.energy a := of_decide_eq_true hg.2
    by_cases hm : m = a
    · subst hm
      rw [debit_energy_alive halive]
      rw [if_pos ⟨rfl, hg.1, halive⟩]
    · rw [debit_energy_ne st _ hm, if_neg (fun hc => hm hc.1)]
  · rw [if_neg hg]
    have : ¬ (m = a ∧ a ≠ st.sink ∧ 0 < st.energy a) := by
      intro hc
      exact hg ⟨hc.2.1, decide_eq_true hc.2.2⟩
    rw [if_neg this]

lemma query_fold_energy (l : List Node) : ∀ st : APTEEN, l.Nodup → ∀ h : Node,
    (l.foldl query_charge_step st).energy h =
      if h ∈ l ∧ h ≠ st.sink ∧ 0 < st.energy h
      then clamp0 (st.energy h - st.radio.costRecvBroadcast st.size_control)
      else st.energy h := by
  induction l with
  | nil =>
    intro st _ h
    simp
  | cons a t ih =>
    intro st hnd h
    obtain ⟨ha, hnd2⟩ := List.nodup_cons.mp hnd
    obtain ⟨e1, h1⟩ := query_charge_step_shape st a
    rw [List.foldl_cons, ih (query_charge_step st a) hnd2 h]
    by_cases hh : h = a
    · subst hh
      have hmem : h ∉ t := ha
      rw [if_neg (fun hc => hmem hc.1)]
      rw [query_charge_step_energy st h h]
      by_cases hc : h ≠ st.sink ∧ 0 < st.energy h
      · rw [if_pos ⟨rfl, hc⟩, if_pos ⟨List.mem_cons_self h t, hc⟩]
      · rw [if_neg (fun hx => hc hx.2), if_neg (fun hx => hc hx.2)]
    · have hs : (query_charge_step st a).sink = st.sink := by rw [h1]
      have hrad : (query_charge_step st a).radio = st.radio := by rw [h1]
      have hsc : (query_charge_step st a).size_control = st.size_control := by rw [h1]
      have hen : (query_charge_step st a).energy h = st.energy h := by
        rw [query_charge_step_energy st a h, if_neg (fun hc => hh hc.1)]
      rw [hs, hrad, hsc, hen]
      by_cases hm : h ∈ t
      · have : h ∈ a :: t := List.mem_cons_of_mem a hm
        by_cases hrest : h ≠ st.sink ∧ 0 < st.energy h
        · rw [if_pos ⟨hm, hrest⟩, if_pos ⟨this, hrest⟩]
        · rw [if_neg (fun hx => hrest hx.2), if_neg (fun hx => hrest hx.2)]
      · have hnotc : h ∉ a :: t := by
          intro hc
          rcases List.mem_cons.mp hc with h1 | h1
          · exact hh h1
          · exact hm h1
        rw [if_neg (fun hx => hm hx.1), if_neg (fun hx => hnotc hx.1)]

/-! ### C10: a query with no arguments -/

lemma query_result_shape (s : APTEEN) (o1 o2 : Option ℚ) (o3 : Option ℤ) :
    ∃ e, update_parameters_from_query s o1 o2 o3 =
      { s with hard_threshold := o1.getD s.hard_threshold,
               soft_threshold := o2.getD s.soft_threshold,
               count_time := o3.getD s.count_time,
               parameters_broadcasted := fun _ => none,
               energy := e } := by
  unfold update_parameters_from_query
  obtain ⟨e, h⟩ := query_fold_shape
    ({ s with hard_threshold := o1.getD s.hard_threshold,
              soft_threshold := o2.getD s.soft_threshold,
              count_time := o3.getD s.count_time,
              parameters_broadcasted := fun _ => none } : APTEEN).clusterHeads
    { s with hard_threshold := o1.getD s.hard_threshold,
             soft_threshold := o2.getD s.soft_threshold,
             count_time := o3.getD s.count_time,
             parameters_broadcasted := fun _ => none }
  exact ⟨e, h⟩

lemma query_result_energy (s : APTEEN) (o1 o2 : Option ℚ) (o3 : Option ℤ)
    (hnd : s.clusterHeads.Nodup) (h : Node) :
    (update_parameters_from_query s o1 o2 o3).energy h =
      if h ∈ s.clusterHeads ∧ h ≠ s.sink ∧ 0 < s.energy h
      then clamp0 (s.energy h - s.radio.costRecvBroadcast s.size_control)
      else s.energy h := by
  unfold update_parameters_from_query
  exact query_fold_energy s.clusterHeads
    { s with hard_threshold := o1.getD s.hard_threshold,
             soft_threshold := o2.getD s.soft_threshold,
             count_time := o3.getD s.count_time,
             parameters_broadcasted := fun _ => none } hnd h

/-- **C10.** `update_parameters_from_query` with all three arguments absent
leaves the global `hard_threshold`, `soft_threshold` and `count_time`
unchanged, yet still clears every `parameters_broadcasted` entry and still
charges every alive non-sink cluster head one control-message receive cost
(clamped at zero); the energy of every other node is untouched. -/
theorem c10_query_without_arguments (s : APTEEN) (hnd : s.clusterHeads.Nodup) :
    (update_parameters_from_query s none none none).hard_threshold
        = s.hard_threshold ∧
    (update_parameters_from_query s none none none).soft_threshold
        = s.soft_threshold ∧
    (update_parameters_from_query s none none none).count_time = s.count_time ∧
    (∀ h, (update_parameters_from_query s none none none).parameters_broadcasted h
        = none) ∧
    (∀ h, h ∈ s.clusterHeads → h ≠ s.sink → 0 < s.energy h →
      (update_parameters_from_query s none none none).energy h
        = clamp0 (s.energy h - s.radio.costRecvBroadcast s.size_control)) ∧
    (∀ h, ¬ (h ∈ s.clusterHeads ∧ h ≠ s.sink ∧ 0 < s.energy h) →
      (update_parameters_from_query s none none none).energy h = s.energy h) := by
  obtain ⟨e, hshape⟩ := query_result_shape s none none none
  refine ⟨by rw [hshape]; rfl, by rw [hshape]; rfl, by rw [hshape]; rfl, ?_, ?_, ?_⟩
  · intro h
    rw [hshape]
  · intro h hmem hsink halive
    rw [query_result_energy s none none none hnd h, if_pos ⟨hmem, hsink, halive⟩]
  · intro h hneg
    rw [query_result_energy s none none none hnd h, if_neg hneg]

/-- The witness network for C10: `W` with a positive receive cost. -/
def Wq : APTEEN :=
  { W with radio := ⟨fun _ _ _ => 0, fun _ _ => 0, fun _ => 1/4⟩ }

/-- Witness for C10 at `Wq`: the head `1` is charged the receive cost, the
member `2` is not, the flags stay cleared and the globals keep their values. -/
theorem c10_query_without_arguments_witness :
    (update_parameters_from_query Wq none none none).hard_threshold = 50 ∧
    (update_parameters_from_query Wq none none none).energy 1 = 3/4 ∧
    (update_parameters_from_query Wq none none none).energy 2 = 1 ∧
    (update_parameters_from_query Wq none none none).parameters_broadcasted 1
      = none := by
  have h := c10_query_without_arguments Wq (by decide)
  refine ⟨?_, ?_, ?_, h.2.2.2.1 1⟩
  · rw [h.1]
    decide
  · rw [h.2.2.2.2.1 1 (by decide) (by decide) (by decide)]
    norm_num [clamp0, Wq, W]
  · rw [h.2.2.2.2.2 2 (by decide)]
    decide

/-! ### C2: gathering at a sub-tree head with nothing to send -/

lemma gatherFold_skip (recur : APTEEN → Node → ℚ → APTEEN × ℚ × Bool)
    (head : Node) (size : ℚ) (s : APTEEN) (sa sna : ℚ) (b : Bool)
    (members : List Node)
    (hmem : ∀ x ∈ members, 0 < s.energy x →
      x ∉ s.clusterHeads ∧
      ∀ v, s.last_values x = some v → should_transmit s x v = false) :
    gatherFold recur head size members (s, sa, sna, b) = (s, sa, sna, b) := by
  unfold gatherFold
  induction members with
  | nil => rfl
  | cons x t ih =>
    rw [List.foldl_cons]
    have hstep : gather_member_step recur head size (s, sa, sna, b) x
        = (s, sa, sna, b) := by
      unfold gather_member_step
      by_cases halive : is_alive s x = true
      · obtain ⟨hnh, hlv⟩ := hmem x (List.mem_cons_self x t)
          (of_decide_eq_true halive)
      
        have hch : is_cluster_head s x = false := by
          unfold is_cluster_head
          exact decide_eq_false hnh
        rw [if_pos halive, hch]
        simp only [Bool.false_eq_true, if_false]
        cases hv : s.last_values x with
        | none => rfl
        | some v =>
          have hst := hlv v hv
          simp [hst]
      · rw [if_neg halive]
    rw [hstep]
    exact ih (fun x hx => hmem x (List.mem_cons_of_mem _ hx))

lemma gather_no_data_sink (fuel : Nat) (s : APTEEN) (head : Node) (size : ℚ)
    (hmem : ∀ x ∈ s.clusterMembers head, 0 < s.energy x →
      x ∉ s.clusterHeads ∧
      ∀ v, s.last_values x = some v → should_transmit s x v = false)
    (hsink : head = s.sink) :
    recursive_gathering_with_teen (fuel + 1) s head size = (s, 0, false) := by
  unfold recursive_gathering_with_teen
  dsimp only
  rw [if_neg (not_not_intro hsink)]
  rw [gatherFold_skip _ _ _ _ _ _ _ _ hmem]
  dsimp only
  rw [if_neg (by norm_num : ¬ (false = true ∨ (0:ℚ) < 0))]

lemma gather_no_data_nonsink (fuel : Nat) (s : APTEEN) (head : Node) (size : ℚ)
    (hmem : ∀ x ∈ s.clusterMembers head, 0 < s.energy x →
      x ∉ s.clusterHeads ∧
      ∀ v, s.last_values x = some v → should_transmit s x v = false)
    (hsink : head ≠ s.sink) (hsize : 0 < size) :
    recursive_gathering_with_teen (fuel + 1) s head size =
      (debit s head (s.energy_agg * size), s.agg_rate * size, true) := by
  unfold recursive_gathering_with_teen
  dsimp only
  rw [if_pos hsink]
  rw [gatherFold_skip _ _ _ _ _ _ _ _ hmem]
  dsimp only
  rw [if_pos (Or.inr hsize : false = true ∨ 0 < size)]
  unfold aggregation
  dsimp only
  rw [add_zero]

/-- **C2 (amended).** In a round where a sub-tree cluster head has no member
transmit—every member is dead, or is a plain node that either has no sensed
value or decides not to transmit—and nothing to relay from child heads
(there are none among its members): if the head is the sink the recursive
gathering returns `(0, false)` and the state is completely unchanged (zero
charge anywhere); but if the head is **not** the sink it still carries its
own payload of the passed size, so the call returns
`(agg_rate * size, true)` and the head is charged exactly the aggregation
cost `energy_agg * size` (and nothing else changes). -/
theorem c2_empty_subtree_accounting (fuel : Nat) (s : APTEEN) (head : Node)
    (size : ℚ)
    (hmem : ∀ x ∈ s.clusterMembers head, 0 < s.energy x →
      x ∉ s.clusterHeads ∧
      ∀ v, s.last_values x = some v → should_transmit s x v = false) :
    (head = s.sink →
      recursive_gathering_with_teen (fuel + 1) s head size = (s, 0, false)) ∧
    (head ≠ s.sink → 0 < size →
      recursive_gathering_with_teen (fuel + 1) s head size =
        (debit s head (s.energy_agg * size), s.agg_rate * size, true)) :=
  ⟨fun hsink => gather_no_data_sink fuel s head size hmem hsink,
   fun hsink hsize => gather_no_data_nonsink fuel s head size hmem hsink hsize⟩

/-- The C2 counterexample network: `W` with a nonzero aggregation energy and
member `2` sensing `10`, far below the hard threshold `50`. -/
def C2S : APTEEN :=
  { W with energy_agg := 1/4096,
           last_values := fun n => if n = 2 then some 10 else none }

lemma c2s_members_skip : ∀ x ∈ C2S.clusterMembers 1, 0 < C2S.energy x →
    x ∉ C2S.clusterHeads ∧
    ∀ v, C2S.last_values x = some v → should_transmit C2S x v = false := by
  intro x hx _
  have hx2 : x = 2 := by
    have : x ∈ [2] := hx
    simpa using this
  subst hx2
  refine ⟨by decide, fun v hv => ?_⟩
  have hv10 : v = 10 := by
    have : (some 10 : Option ℚ) = some v := hv
    exact (Option.some.injEq _ _).mp this.symm
  subst hv10
  decide

/-- Counterexample to C2 as stated: in `C2S` the non-sink head `1` has its
single member alive but silent (sensed value `10 < HT = 50`), yet the
gathering call on head `1` reports `has_data = true` with aggregated size
`agg_rate * 4096 = 12288/5`, and the head is charged the aggregation cost
(its energy drops from `1` to `0`). -/
theorem c2_empty_subtree_counterexample :
    C2S.clusterHeads = [1] ∧ (1 : Node) ≠ C2S.sink ∧
    C2S.clusterMembers 1 = [2] ∧ 0 < C2S.energy 2 ∧
    should_transmit C2S 2 10 = false ∧
    (recursive_gathering_with_teen 1 C2S 1 4096).2.2 = true ∧
    (recursive_gathering_with_teen 1 C2S 1 4096).2.1 = 12288/5 ∧
    C2S.energy 1 = 1 ∧
    (recursive_gathering_with_teen 1 C2S 1 4096).1.energy 1 = 0 := by
  have hr := gather_no_data_nonsink 0 C2S 1 4096 c2s_members_skip
    (by decide) (by norm_num)
  refine ⟨by decide, by decide, by decide, by decide, by decide, ?_, ?_, by decide, ?_⟩
  · rw [hr]
  · rw [hr]
    show C2S.agg_rate * 4096 = 12288/5
    norm_num [C2S, W]
  · rw [hr]
    show (debit C2S 1 (C2S.energy_agg * 4096)).energy 1 = 0
    rw [debit_energy_alive (by decide)]
    have : C2S.energy 1 - C2S.energy_agg * 4096 = 0 := by
      norm_num [C2S, W]
    rw [this]
    decide

/-- Witness for the amended C2 at `C2S`: the sink case returns `(0, false)`
with the state unchanged, and the non-sink head case returns
`(agg_rate * size, true)` with exactly the aggregation charge. -/
theorem c2_empty_subtree_accounting_witness :
    recursive_gathering_with_teen 1 C2S 1 4096 =
      (debit C2S 1 (C2S.energy_agg * 4096), C2S.agg_rate * 4096, true) := by
  exact (c2_empty_subtree_accounting 0 C2S 1 4096 c2s_members_skip).2
    (by decide) (by norm_num)

/-! ### Per-node frame lemmas for the gathering pass -/

/-- The per-node tracking view: two states agree on node `m`'s energy, last
transmitted value and withhold counter. -/
def node_state_eq (t s : APTEEN) (m : Node) : Prop :=
  t.energy m = s.energy m ∧
  t.last_transmission m = s.last_transmission m ∧
  t.rounds_since_transmission m = s.rounds_since_transmission m

lemma node_state_eq_refl (s : APTEEN) (m : Node) : node_state_eq s s m :=
  ⟨rfl, rfl, rfl⟩

lemma node_state_eq_trans {t u s : APTEEN} {m : Node}
    (h1 : node_state_eq t u m) (h2 : node_state_eq u s m) :
    node_state_eq t s m :=
  ⟨h1.1.trans h2.1, h1.2.1.trans h2.2.1, h1.2.2.trans h2.2.2⟩

lemma singlecast_eq (s : APTEEN) (n : Node) (sz : ℚ) (d : Node) :
    singlecast s n sz d = debit s n (s.radio.costSinglecast sz n d) := rfl

lemma debit_node_state_eq_ne {n m : Node} (s : APTEEN) (c : ℚ) (h : n ≠ m) :
    node_state_eq (debit s n c) s m := by
  refine ⟨debit_energy_ne s c (fun he => h he.symm), ?_, ?_⟩
  · rw [debit_last_transmission]
  · rw [debit_rounds]

lemma debit_node_state_eq_dead {s : APTEEN} {m : Node}
    (hdead : ¬ 0 < s.energy m) (n : Node) (c : ℚ) :
    node_state_eq (debit s n c) s m := by
  by_cases hnm : n = m
  · subst hnm
    rw [debit_dead hdead]
    exact node_state_eq_refl _ _
  · exact debit_node_state_eq_ne s c hnm

/-! ### C7: dead nodes are silently absent -/

lemma gather_member_step_dead {m : Node}
    (recur : APTEEN → Node → ℚ → APTEEN × ℚ × Bool)
    (hrec : ∀ st hd sz, ¬ 0 < st.energy m →
      node_state_eq (recur st hd sz).1 st m)
    (head : Node) (size : ℚ) (acc : APTEEN × ℚ × ℚ × Bool) (x : Node)
    (hdead : ¬ 0 < acc.1.energy m) :
    node_state_eq (gather_member_step recur head size acc x).1 acc.1 m := by
  unfold gather_member_step
  dsimp only
  by_cases halive : is_alive acc.1 x = true
  · rw [if_pos halive]
    have hxm : x ≠ m := by
      intro he
      exact hdead (he ▸ of_decide_eq_true halive)
    by_cases hch : is_cluster_head acc.1 x = true
    · rw [if_pos hch]
      have h1 := hrec acc.1 x size hdead
      by_cases hd : (recur acc.1 x size).2.2 = true
      · rw [if_pos hd]
        refine node_state_eq_trans ?_ h1
        rw [singlecast_eq]
        exact debit_node_state_eq_ne _ _ hxm
      · rw [if_neg hd]
        exact h1
    · rw [if_neg hch]
      split
      · split
        · refine ⟨?_, ?_, ?_⟩
          · show (singlecast acc.1 x size head).energy m = acc.1.energy m
            rw [singlecast_eq]
            exact (debit_node_state_eq_ne _ _ hxm).1
          · show (if m = x then _ else
                (singlecast acc.1 x size head).last_transmission m)
              = acc.1.last_transmission m
            rw [if_neg (fun he => hxm he.symm), singlecast_eq,
              debit_last_transmission]
          · show (if m = x then (0:ℤ) else
                (singlecast acc.1 x size head).rounds_since_transmission m)
              = acc.1.rounds_since_transmission m
            rw [if_neg (fun he => hxm he.symm), singlecast_eq, debit_rounds]
        · exact node_state_eq_refl _ m
      · exact node_state_eq_refl _ m
  · rw [if_neg halive]
    exact node_state_eq_refl _ m

lemma gatherFold_dead {m : Node}
    (recur : APTEEN → Node → ℚ → APTEEN × ℚ × Bool)
    (hrec : ∀ st hd sz, ¬ 0 < st.energy m →
      node_state_eq (recur st hd sz).1 st m)
    (head : Node) (size : ℚ) (members : List Node) :
    ∀ acc : APTEEN × ℚ × ℚ × Bool, ¬ 0 < acc.1.energy m →
      node_state_eq (gatherFold recur head size members acc).1 acc.1 m := by
  unfold gatherFold
  induction members with
  | nil =>
    intro acc _
    exact node_state_eq_refl _ m
  | cons x t ih =>
    intro acc hdead
    rw [List.foldl_cons]
    have hstep := gather_member_step_dead recur hrec head size acc x hdead
    have hdead2 : ¬ 0 < (gather_member_step recur head size acc x).1.energy m := by
      rw [hstep.1]
      exact hdead
    exact node_state_eq_trans (ih _ hdead2) hstep

lemma gather_dead {m : Node} :
    ∀ (fuel : Nat) (st : APTEEN) (head : Node) (size : ℚ),
      ¬ 0 < st.energy m →
      node_state_eq (recursive_gathering_with_teen fuel st head size).1 st m := by
  intro fuel
  induction fuel with
  | zero =>
    intro st head size _
    exact node_state_eq_refl st m
  | succ fuel ih =>
    intro st head size hdead
    unfold recursive_gathering_with_teen
    dsimp only
    have hfold := gatherFold_dead (recursive_gathering_with_teen fuel)
      (fun t hd sz h => ih t hd sz h) head size (st.clusterMembers head)
      (st, 0, if head ≠ st.sink then size else 0, false) hdead
    set r := gatherFold (recursive_gathering_with_teen fuel) head size
      (st.clusterMembers head)
      (st, 0, if head ≠ st.sink then size else 0, false) with hr
    have hdead2 : ¬ 0 < r.1.energy m := by
      rw [hfold.1]
      exact hdead
    by_cases hcond : r.2.2.2 = true ∨ 0 < r.2.2.1
    · rw [if_pos hcond]
      unfold aggregation
      exact node_state_eq_trans (debit_node_state_eq_dead hdead2 head _) hfold
    · rw [if_neg hcond]
      exact hfold

lemma member_fold_dead_energy {m : Node} :
    ∀ (l : List Node) (st : APTEEN), ¬ 0 < st.energy m →
      (l.foldl member_recv_step st).energy m = st.energy m := by
  intro l
  induction l with
  | nil => intro st _; rfl
  | cons x t ih =>
    intro st hdead
    rw [List.foldl_cons]
    have hstep : (member_recv_step st x).energy m = st.energy m := by
      unfold member_recv_step recv_broadcast
      split
      · exact (debit_node_state_eq_dead hdead x _).1
      · rfl
    have hdead2 : ¬ 0 < (member_recv_step st x).energy m := by
      rw [hstep]
      exact hdead
    rw [ih _ hdead2, hstep]

lemma broadcast_dead_energy {s : APTEEN} {m : Node}
    (hdead : ¬ 0 < s.energy m) (c : Node) :
    (broadcast_teen_parameters s c).energy m = s.energy m := by
  unfold broadcast_teen_parameters
  dsimp only
  split
  · rfl
  · have h1 := member_fold_dead_energy (s.clusterMembers c) s hdead
    have hdead2 : ¬ 0 < ((s.clusterMembers c).foldl member_recv_step s).energy m := by
      rw [h1]
      exact hdead
    unfold node_broadcast
    have h2 := (debit_node_state_eq_dead hdead2 c
      (((s.clusterMembers c).foldl member_recv_step s).radio.costBroadcast
        ((s.clusterMembers c).foldl member_recv_step s).size_control
        (s.clusterMembers c).length)).1
    calc (debit ((s.clusterMembers c).foldl member_recv_step s) c
            (((s.clusterMembers c).foldl member_recv_step s).radio.costBroadcast
              ((s.clusterMembers c).foldl member_recv_step s).size_control
              (s.clusterMembers c).length)).energy m
        = ((s.clusterMembers c).foldl member_recv_step s).energy m := h2
      _ = s.energy m := h1

/-- **C7.** A dead node is silently treated as absent and never raises: in
the gathering pass a dead member is never recursed into or debited and has
no tracking state updated (its energy, `last_transmission` entry and
withhold counter are exactly as before the pass), and in the TEEN parameter
broadcast a dead member is never charged the control-message receive cost. -/
theorem c7_dead_node_skipped (fuel : Nat) (s : APTEEN) (m head c : Node)
    (size : ℚ) (hdead : ¬ 0 < s.energy m) :
    node_state_eq (recursive_gathering_with_teen fuel s head size).1 s m ∧
    (broadcast_teen_parameters s c).energy m = s.energy m :=
  ⟨gather_dead fuel s head size hdead, broadcast_dead_energy hdead c⟩

/-- The C7/C9 witness network: `W` with the dead node `3` listed as a member
of head `1` and sensed values present for nodes `1`, `2` and `3`. -/
def W7 : APTEEN :=
  { W with
    clusterMembers := fun n => if n = 0 then [1] else if n = 1 then [2, 3] else [],
    last_values := fun n => if n = 3 then some 60 else none }

/-- Witness for C7 at `W7`: the dead member `3` keeps its energy and tracking
entries through a full gathering pass from the sink and through the head's
parameter broadcast. -/
theorem c7_dead_node_skipped_witness :
    node_state_eq (recursive_gathering_with_teen 2 W7 W7.sink 4096).1 W7 3 ∧
    (broadcast_teen_parameters W7 1).energy 3 = W7.energy 3 :=
  c7_dead_node_skipped 2 W7 3 W7.sink 1 4096 (by decide)

/-! ### C9: alive members without a sensed value are skipped -/

/-- Frame predicate: the two states can differ at most in `energy`,
`last_transmission` and `rounds_since_transmission` — exactly the fields the
gathering pass is allowed to touch. -/
def tracking_only_diff (t s : APTEEN) : Prop :=
  t.sink = s.sink ∧ t.nonSinks = s.nonSinks ∧ t.clusterHeads = s.clusterHeads ∧
  t.clusterMembers = s.clusterMembers ∧ t.radio = s.radio ∧
  t.size_control = s.size_control ∧ t.size_data = s.size_data ∧
  t.energy_agg = s.energy_agg ∧ t.agg_rate = s.agg_rate ∧
  t.hard_threshold = s.hard_threshold ∧ t.soft_threshold = s.soft_threshold ∧
  t.count_time = s.count_time ∧ t.cluster_parameters = s.cluster_parameters ∧
  t.data_generator = s.data_generator ∧ t.last_values = s.last_values ∧
  t.parameters_broadcasted = s.parameters_broadcasted ∧ t.round = s.round

lemma tracking_only_diff_refl (s : APTEEN) : tracking_only_diff s s :=
  ⟨rfl, rfl, rfl, rfl, rfl, rfl, rfl, rfl, rfl, rfl, rfl, rfl, rfl, rfl, rfl,
   rfl, rfl⟩

lemma tracking_only_diff_trans {t u s : APTEEN}
    (h1 : tracking_only_diff t u) (h2 : tracking_only_diff u s) :
    tracking_only_diff t s := by
  obtain ⟨a1, a2, a3, a4, a5, a6, a7, a8, a9, a10, a11, a12, a13, a14, a15, a16, a17⟩ := h1
  obtain ⟨b1, b2, b3, b4, b5, b6, b7, b8, b9, b10, b11, b12, b13, b14, b15, b16, b17⟩ := h2
  exact ⟨a1.trans b1, a2.trans b2, a3.trans b3, a4.trans b4, a5.trans b5,
    a6.trans b6, a7.trans b7, a8.trans b8, a9.trans b9, a10.trans b10,
    a11.trans b11, a12.trans b12, a13.trans b13, a14.trans b14, a15.trans b15,
    a16.trans b16, a17.trans b17⟩

lemma debit_tracking_only (s : APTEEN) (n : Node) (c : ℚ) :
    tracking_only_diff (debit s n c) s := by
  obtain ⟨e, h⟩ := debit_shape s n c
  rw [h]
  exact tracking_only_diff_refl s

lemma gather_member_step_tracking
    (recur : APTEEN → Node → ℚ → APTEEN × ℚ × Bool)
    (hrec : ∀ st hd sz, tracking_only_diff (recur st hd sz).1 st)
    (head : Node) (size : ℚ) (acc : APTEEN × ℚ × ℚ × Bool) (x : Node) :
    tracking_only_diff (gather_member_step recur head size acc x).1 acc.1 := by
  unfold gather_member_step
  dsimp only
  by_cases halive : is_alive acc.1 x = true
  · rw [if_pos halive]
    by_cases hch : is_cluster_head acc.1 x = true
    · rw [if_pos hch]
      have h1 := hrec acc.1 x size
      by_cases hd : (recur acc.1 x size).2.2 = true
      · rw [if_pos hd]
        refine tracking_only_diff_trans ?_ h1
        rw [singlecast_eq]
        exact debit_tracking_only _ _ _
      · rw [if_neg hd]
        exact h1
    · rw [if_neg hch]
      split
      · split
        · have h2 : tracking_only_diff (singlecast acc.1 x size head) acc.1 := by
            rw [singlecast_eq]
            exact debit_tracking_only acc.1 x _
          exact tracking_only_diff_trans
            ⟨rfl, rfl, rfl, rfl, rfl, rfl, rfl, rfl, rfl, rfl, rfl, rfl, rfl,
             rfl, rfl, rfl, rfl⟩ h2
        · exact tracking_only_diff_refl _
      · exact tracking_only_diff_refl _
  · rw [if_neg halive]
    exact tracking_only_diff_refl _

lemma gatherFold_tracking
    (recur : APTEEN → Node → ℚ → APTEEN × ℚ × Bool)
    (hrec : ∀ st hd sz, tracking_only_diff (recur st hd sz).1 st)
    (head : Node) (size : ℚ) (members : List Node) :
    ∀ acc : APTEEN × ℚ × ℚ × Bool,
      tracking_only_diff (gatherFold recur head size members acc).1 acc.1 := by
  unfold gatherFold
  induction members with
  | nil => intro acc; exact tracking_only_diff_refl _
  | cons x t ih =>
    intro acc
    rw [List.foldl_cons]
    exact tracking_only_diff_trans (ih _)
      (gather_member_step_tracking recur hrec head size acc x)

lemma gather_tracking :
    ∀ (fuel : Nat) (st : APTEEN) (head : Node) (size : ℚ),
      tracking_only_diff (recursive_gathering_with_teen fuel st head size).1 st := by
  intro fuel
  induction fuel with
  | zero => intro st head size; exact tracking_only_diff_refl st
  | succ fuel ih =>
    intro st head size
    unfold recursive_gathering_with_teen
    dsimp only
    have hfold := gatherFold_tracking (recursive_gathering_with_teen fuel)
      (fun t hd sz => ih t hd sz) head size (st.clusterMembers head)
      (st, 0, if head ≠ st.sink then size else 0, false)
    set r := gatherFold (recursive_gathering_with_teen fuel) head size
      (st.clusterMembers head)
      (st, 0, if head ≠ st.sink then size else 0, false) with hr
    by_cases hcond : r.2.2.2 = true ∨ 0 < r.2.2.1
    · rw [if_pos hcond]
      unfold aggregation
      exact tracking_only_diff_trans (debit_tracking_only r.1 head _) hfold
    · rw [if_neg hcond]
      exact hfold

lemma gather_member_step_untouched {m : Node}
    (recur : APTEEN → Node → ℚ → APTEEN × ℚ × Bool)
    (hrecU : ∀ st hd sz, m ∉ st.clusterHeads → st.last_values m = none →
      hd ≠ m → node_state_eq (recur st hd sz).1 st m)
    (head : Node) (size : ℚ) (acc : APTEEN × ℚ × ℚ × Bool) (x : Node)
    (_hhm : head ≠ m) (hmh : m ∉ acc.1.clusterHeads)
    (hlvm : acc.1.last_values m = none) :
    node_state_eq (gather_member_step recur head size acc x).1 acc.1 m := by
  unfold gather_member_step
  dsimp only
  by_cases halive : is_alive acc.1 x = true
  · rw [if_pos halive]
    by_cases hch : is_cluster_head acc.1 x = true
    · rw [if_pos hch]
      have hxm : x ≠ m := by
        intro he
        exact hmh (he ▸ of_decide_eq_true hch)
      have h1 := hrecU acc.1 x size hmh hlvm hxm
      by_cases hd : (recur acc.1 x size).2.2 = true
      · rw [if_pos hd]
        refine node_state_eq_trans ?_ h1
        rw [singlecast_eq]
        exact debit_node_state_eq_ne _ _ hxm
      · rw [if_neg hd]
        exact h1
    · rw [if_neg hch]
      split
      · rename_i cv heq
        have hxm : x ≠ m := by
          intro he
          rw [he, hlvm] at heq
          cases heq
        split
        · refine ⟨?_, ?_, ?_⟩
          · show (singlecast acc.1 x size head).energy m = acc.1.energy m
            rw [singlecast_eq]
            exact (debit_node_state_eq_ne _ _ hxm).1
          · show (if m = x then _ else
                (singlecast acc.1 x size head).last_transmission m)
              = acc.1.last_transmission m
            rw [if_neg (fun he => hxm he.symm), singlecast_eq,
              debit_last_transmission]
          · show (if m = x then (0:ℤ) else
                (singlecast acc.1 x size head).rounds_since_transmission m)
              = acc.1.rounds_since_transmission m
            rw [if_neg (fun he => hxm he.symm), singlecast_eq, debit_rounds]
        · exact node_state_eq_refl _ m
      · exact node_state_eq_refl _ m
  · rw [if_neg halive]
    exact node_state_eq_refl _ m

lemma gatherFold_untouched {m : Node}
    (recur : APTEEN → Node → ℚ → APTEEN × ℚ × Bool)
    (hrecT : ∀ st hd sz, tracking_only_diff (recur st hd sz).1 st)
    (hrecU : ∀ st hd sz, m ∉ st.clusterHeads → st.last_values m = none →
      hd ≠ m → node_state_eq (recur st hd sz).1 st m)
    (head : Node) (size : ℚ) (members : List Node) (hhm : head ≠ m) :
    ∀ acc : APTEEN × ℚ × ℚ × Bool, m ∉ acc.1.clusterHeads →
      acc.1.last_values m = none →
      node_state_eq (gatherFold recur head size members acc).1 acc.1 m := by
  unfold gatherFold
  induction members with
  | nil =>
    intro acc _ _
    exact node_state_eq_refl _ m
  | cons x t ih =>
    intro acc hmh hlvm
    rw [List.foldl_cons]
    have htr := gather_member_step_tracking recur hrecT head size acc x
    have hstep := gather_member_step_untouched recur hrecU head size acc x
      hhm hmh hlvm
    have hmh2 : m ∉ (gather_member_step recur head size acc x).1.clusterHeads := by
      rw [htr.2.2.1]
      exact hmh
    have hlvm2 : (gather_member_step recur head size acc x).1.last_values m
        = none := by
      rw [htr.2.2.2.2.2.2.2.2.2.2.2.2.2.2.1]
      exact hlvm
    exact node_state_eq_trans (ih _ hmh2 hlvm2) hstep

lemma gather_untouched {m : Node} :
    ∀ (fuel : Nat) (st : APTEEN) (head : Node) (size : ℚ),
      m ∉ st.clusterHeads → st.last_values m = none → head ≠ m →
      node_state_eq (recursive_gathering_with_teen fuel st head size).1 st m := by
  intro fuel
  induction fuel with
  | zero =>
    intro st head size _ _ _
    exact node_state_eq_refl st m
  | succ fuel ih =>
    intro st head size hmh hlvm hhm
    unfold recursive_gathering_with_teen
    dsimp only
    have hfold := gatherFold_untouched (recursive_gathering_with_teen fuel)
      (fun t hd sz => gather_tracking fuel t hd sz)
      (fun t hd sz a b c => ih t hd sz a b c) head size
      (st.clusterMembers head) hhm
      (st, 0, if head ≠ st.sink then size else 0, false) hmh hlvm
    set r := gatherFold (recursive_gathering_with_teen fuel) head size
      (st.clusterMembers head)
      (st, 0, if head ≠ st.sink then size else 0, false) with hr
    by_cases hcond : r.2.2.2 = true ∨ 0 < r.2.2.1
    · rw [if_pos hcond]
      unfold aggregation
      exact node_state_eq_trans (debit_node_state_eq_ne _ _ hhm) hfold
    · rw [if_neg hcond]
      exact hfold

/-- **C9.** An alive cluster member with no `last_values` entry is skipped
entirely by the gathering pass: it is charged no energy, and its
`last_transmission` and `rounds_since_transmission` entries are left exactly
as they were.  (The per-member value lookup is guarded by the
`member in self.last_values` test — modelled by the `Option` match — so the
gathering function is total and never fails on a missing sensing entry.) -/
theorem c9_missing_sensing_skipped (fuel : Nat) (s : APTEEN) (m : Node)
    (size : ℚ) (h1 : m ∉ s.clusterHeads) (h2 : s.last_values m = none)
    (h3 : m ≠ s.sink) :
    node_state_eq (recursive_gathering_with_teen fuel s s.sink size).1 s m :=
  gather_untouched fuel s s.sink size h1 h2 (fun he => h3 he.symm)

/-- Witness for C9 at `W`: member `2` is alive, is no cluster head and has
no sensed value, and a full gathering pass from the sink leaves its energy
and tracking entries unchanged. -/
theorem c9_missing_sensing_skipped_witness :
    node_state_eq (recursive_gathering_with_teen 2 W W.sink 4096).1 W 2 :=
  c9_missing_sensing_skipped 2 W 2 4096 (by decide) (by decide) (by decide)

/-! ### C8: sensing precedes every transmission decision -/

lemma sense_step_shape (st : APTEEN) (x : Node) :
    sense_step st x =
      { st with
        last_values := fun m =>
          if m = x then some (st.data_generator x st.round) else st.last_values m,
        rounds_since_transmission := fun m =>
          if m = x then st.rounds_since_transmission x + 1
          else st.rounds_since_transmission m } := rfl

lemma sense_fold_last_values (g : Node → Nat → ℚ) (r : Nat) :
    ∀ (l : List Node) (st : APTEEN), st.data_generator = g → st.round = r →
      ∀ n, (l.foldl sense_step st).last_values n =
        if n ∈ l then some (g n r) else st.last_values n := by
  intro l
  induction l with
  | nil =>
    intro st _ _ n
    simp
  | cons x t ih =>
    intro st hg hr n
    rw [List.foldl_cons]
    have hg2 : (sense_step st x).data_generator = g := hg
    have hr2 : (sense_step st x).round = r := hr
    rw [ih (sense_step st x) hg2 hr2 n]
    by_cases hn : n ∈ t
    · rw [if_pos hn, if_pos (List.mem_cons_of_mem x hn)]
    · rw [if_neg hn]
      rw [sense_step_shape]
      by_cases hnx : n = x
      · subst hnx
        show (if n = n then some (st.data_generator n st.round)
            else st.last_values n) = _
        rw [if_pos rfl, if_pos (List.mem_cons_self n t), hg, hr]
      · show (if n = x then some (st.data_generator x st.round)
            else st.last_values n) = _
        rw [if_neg hnx]
        have : n ∉ x :: t := by
          intro hc
          rcases List.mem_cons.mp hc with h1 | h1
          · exact hnx h1
          · exact hn h1
        rw [if_neg this]

/-- **C8.** In every round whose steady-state phase runs with a non-empty
cluster set, the phase is exactly "sense everything, then gather": first
`last_values` is refreshed for every alive non-sink node with the value the
data generator produces for that node and the current round, and only then
is the gathering pass — which contains every `should_transmit` decision —
run on the fully sensed state; the gathering itself never writes
`last_values`, so every decision of the round reads the round's sensed
values, and after the phase `last_values` still holds the round's sensed
value for every alive non-sink. -/
theorem c8_sensing_before_decisions (fuel : Nat) (s : APTEEN)
    (hne : s.clusterHeads ≠ []) :
    steady_state_phase fuel s =
      (recursive_gathering_with_teen fuel (sense_phase s) s.sink s.size_data).1 ∧
    (∀ n, n ∈ alive_non_sinks s →
      (sense_phase s).last_values n = some (s.data_generator n s.round)) ∧
    (∀ (f : Nat) (t : APTEEN) (h : Node) (sz : ℚ),
      (recursive_gathering_with_teen f t h sz).1.last_values = t.last_values) ∧
    (∀ n, n ∈ alive_non_sinks s →
      (steady_state_phase fuel s).last_values n
        = some (s.data_generator n s.round)) := by
  have hsense : ∀ n, n ∈ alive_non_sinks s →
      (sense_phase s).last_values n = some (s.data_generator n s.round) := by
    intro n hn
    unfold sense_phase
    rw [sense_fold_last_values s.data_generator s.round (alive_non_sinks s) s
      rfl rfl n, if_pos hn]
  have hgather : ∀ (f : Nat) (t : APTEEN) (h : Node) (sz : ℚ),
      (recursive_gathering_with_teen f t h sz).1.last_values = t.last_values :=
    fun f t h sz => (gather_tracking f t h sz).2.2.2.2.2.2.2.2.2.2.2.2.2.2.1
  have hphase : steady_state_phase fuel s =
      (recursive_gathering_with_teen fuel (sense_phase s) s.sink s.size_data).1 := by
    unfold steady_state_phase
    rw [if_neg hne]
  refine ⟨hphase, hsense, hgather, ?_⟩
  intro n hn
  rw [hphase, hgather, hsense n hn]

/-- Witness for C8 at `W`: after one steady-state phase both alive non-sinks
hold the generator value `55` for round `0` in `last_values`. -/
theorem c8_sensing_before_decisions_witness :
    (steady_state_phase 2 W).last_values 1 = some 55 ∧
    (steady_state_phase 2 W).last_values 2 = some 55 := by
  have h := c8_sensing_before_decisions 2 W (by decide)
  exact ⟨h.2.2.2 1 (by decide), h.2.2.2 2 (by decide)⟩

/-! ### C3: query invalidation and the next setup's re-broadcast -/

lemma member_recv_step_shape (st : APTEEN) (x : Node) :
    ∃ e, member_recv_step st x = { st with energy := e } := by
  unfold member_recv_step
  split
  · unfold recv_broadcast
    exact debit_shape _ _ _
  · exact ⟨st.energy, rfl⟩

lemma member_fold_shape :
    ∀ (l : List Node) (st : APTEEN),
      ∃ e, l.foldl member_recv_step st = { st with energy := e } := by
  intro l
  induction l with
  | nil => intro st; exact ⟨st.energy, rfl⟩
  | cons x t ih =>
    intro st
    obtain ⟨e1, h1⟩ := member_recv_step_shape st x
    obtain ⟨e2, h2⟩ := ih (member_recv_step st x)
    rw [List.foldl_cons]
    exact ⟨e2, by rw [h2, h1]⟩

lemma broadcast_empty {st : APTEEN} {c : Node} (hm : st.clusterMembers c = []) :
    broadcast_teen_parameters st c = st := by
  unfold broadcast_teen_parameters
  dsimp only
  rw [if_pos hm]

lemma broadcast_shape (st : APTEEN) (c : Node) :
    ∃ e pb, broadcast_teen_parameters st c =
      { st with energy := e, parameters_broadcasted := pb } := by
  unfold broadcast_teen_parameters
  dsimp only
  split
  · exact ⟨st.energy, st.parameters_broadcasted, rfl⟩
  · obtain ⟨e1, h1⟩ := member_fold_shape (st.clusterMembers c) st
    unfold node_broadcast
    obtain ⟨e2, h2⟩ := debit_shape ((st.clusterMembers c).foldl member_recv_step st) c
      (((st.clusterMembers c).foldl member_recv_step st).radio.costBroadcast
        ((st.clusterMembers c).foldl member_recv_step st).size_control
        (st.clusterMembers c).length)
    refine ⟨e2, fun h =>
      if h = c then some true else st.parameters_broadcasted h, ?_⟩
    rw [h2, h1]

lemma broadcast_pb_of_ne {st : APTEEN} {h c : Node} (hne : h ≠ c) :
    (broadcast_teen_parameters st c).parameters_broadcasted h
      = st.parameters_broadcasted h := by
  by_cases hm : st.clusterMembers c = []
  · rw [broadcast_empty hm]
  · unfold broadcast_teen_parameters
    dsimp only
    rw [if_neg hm]
    dsimp only
    rw [if_neg hne]
    obtain ⟨e1, h1⟩ := member_fold_shape (st.clusterMembers c) st
    unfold node_broadcast
    obtain ⟨e2, h2⟩ := debit_shape ((st.clusterMembers c).foldl member_recv_step st) c
      (((st.clusterMembers c).foldl member_recv_step st).radio.costBroadcast
        ((st.clusterMembers c).foldl member_recv_step st).size_control
        (st.clusterMembers c).length)
    rw [h2, h1]

lemma broadcast_pb_self {st : APTEEN} {c : Node}
    (hm : st.clusterMembers c ≠ []) :
    (broadcast_teen_parameters st c).parameters_broadcasted c = some true := by
  unfold broadcast_teen_parameters
  dsimp only
  rw [if_neg hm]
  dsimp only
  rw [if_pos rfl]

lemma broadcast_pb_mono {st : APTEEN} {h : Node} (c : Node)
    (hsome : st.parameters_broadcasted h = some true) :
    (broadcast_teen_parameters st c).parameters_broadcasted h = some true := by
  by_cases hc : h = c
  · subst hc
    by_cases hm : st.clusterMembers h = []
    · rw [broadcast_empty hm]
      exact hsome
    · exact broadcast_pb_self hm
  · rw [broadcast_pb_of_ne hc]
    exact hsome

lemma member_recv_step_energy_le {st : APTEEN}
    (hcrb : ∀ sz, 0 ≤ st.radio.costRecvBroadcast sz) (x m : Node) :
    (member_recv_step st x).energy m ≤ st.energy m := by
  unfold member_recv_step
  split
  · unfold recv_broadcast
    exact debit_energy_le (hcrb _) m
  · exact le_refl _

lemma member_fold_energy_le (RD : RadioModel)
    (hcrb : ∀ sz, 0 ≤ RD.costRecvBroadcast sz) :
    ∀ (l : List Node) (st : APTEEN), st.radio = RD →
      ∀ m, (l.foldl member_recv_step st).energy m ≤ st.energy m := by
  intro l
  induction l with
  | nil => intro st _ m; exact le_refl _
  | cons x t ih =>
    intro st hrad m
    rw [List.foldl_cons]
    obtain ⟨e1, h1⟩ := member_recv_step_shape st x
    have hrad2 : (member_recv_step st x).radio = RD := by rw [h1]; exact hrad
    calc (t.foldl member_recv_step (member_recv_step st x)).energy m
        ≤ (member_recv_step st x).energy m := ih _ hrad2 m
      _ ≤ st.energy m :=
        member_recv_step_energy_le (by intro sz; rw [hrad]; exact hcrb sz) x m

lemma broadcast_energy_le (RD : RadioModel)
    (hcrb : ∀ sz, 0 ≤ RD.costRecvBroadcast sz)
    (hcb : ∀ sz k, 0 ≤ RD.costBroadcast sz k)
    (st : APTEEN) (c : Node) (hrad : st.radio = RD) (m : Node) :
    (broadcast_teen_parameters st c).energy m ≤ st.energy m := by
  by_cases hm : st.clusterMembers c = []
  · rw [broadcast_empty hm]
  · unfold broadcast_teen_parameters
    dsimp only
    rw [if_neg hm]
    obtain ⟨e1, h1⟩ := member_fold_shape (st.clusterMembers c) st
    have hrad2 : ((st.clusterMembers c).foldl member_recv_step st).radio = RD := by
      rw [h1]; exact hrad
    show (node_broadcast ((st.clusterMembers c).foldl member_recv_step st) c
        ((st.clusterMembers c).foldl member_recv_step st).size_control
        (st.clusterMembers c).length).energy m ≤ st.energy m
    unfold node_broadcast
    calc (debit ((st.clusterMembers c).foldl member_recv_step st) c
            (((st.clusterMembers c).foldl member_recv_step st).radio.costBroadcast
              ((st.clusterMembers c).foldl member_recv_step st).size_control
              (st.clusterMembers c).length)).energy m
        ≤ ((st.clusterMembers c).foldl member_recv_step st).energy m :=
          debit_energy_le (by rw [hrad2]; exact hcb _ _) m
      _ ≤ st.energy m := member_fold_energy_le RD hcrb (st.clusterMembers c) st hrad m

lemma setup_broadcast_step_shape (st : APTEEN) (a : Node) :
    ∃ e pb, setup_broadcast_step st a =
      { st with energy := e, parameters_broadcasted := pb } := by
  unfold setup_broadcast_step
  split
  · exact broadcast_shape st a
  · exact ⟨st.energy, st.parameters_broadcasted, rfl⟩

lemma setup_step_energy_le (RD : RadioModel)
    (hcrb : ∀ sz, 0 ≤ RD.costRecvBroadcast sz)
    (hcb : ∀ sz k, 0 ≤ RD.costBroadcast sz k)
    (st : APTEEN) (a : Node) (hrad : st.radio = RD) (m : Node) :
    (setup_broadcast_step st a).energy m ≤ st.energy m := by
  unfold setup_broadcast_step
  split
  · exact broadcast_energy_le RD hcrb hcb st a hrad m
  · exact le_refl _

lemma setup_fold_energy_le (RD : RadioModel)
    (hcrb : ∀ sz, 0 ≤ RD.costRecvBroadcast sz)
    (hcb : ∀ sz k, 0 ≤ RD.costBroadcast sz k) :
    ∀ (l : List Node) (st : APTEEN), st.radio = RD →
      ∀ m, (l.foldl setup_broadcast_step st).energy m ≤ st.energy m := by
  intro l
  induction l with
  | nil => intro st _ m; exact le_refl _
  | cons a t ih =>
    intro st hrad m
    rw [List.foldl_cons]
    obtain ⟨e1, pb1, h1⟩ := setup_broadcast_step_shape st a
    have hrad2 : (setup_broadcast_step st a).radio = RD := by rw [h1]; exact hrad
    calc (t.foldl setup_broadcast_step (setup_broadcast_step st a)).energy m
        ≤ (setup_broadcast_step st a).energy m := ih _ hrad2 m
      _ ≤ st.energy m := setup_step_energy_le RD hcrb hcb st a hrad m

lemma setup_fold_pb_mono :
    ∀ (l : List Node) (st : APTEEN) (h : Node),
      st.parameters_broadcasted h = some true →
      (l.foldl setup_broadcast_step st).parameters_broadcasted h = some true := by
  intro l
  induction l with
  | nil => intro st h hsome; exact hsome
  | cons a t ih =>
    intro st h hsome
    rw [List.foldl_cons]
    apply ih
    unfold setup_broadcast_step
    split
    · exact broadcast_pb_mono a hsome
    · exact hsome

lemma setup_fold_pb_sound (SK : Node) (MM : Node → List Node) (HH : List Node) :
    ∀ (l : List Node) (st : APTEEN), st.sink = SK → st.clusterMembers = MM →
      (∀ x ∈ l, x ∈ HH) →
      (∀ h, st.parameters_broadcasted h = none ∨
        (h ∈ HH ∧ h ≠ SK ∧ MM h ≠ [] ∧
          st.parameters_broadcasted h = some true)) →
      ∀ h, (l.foldl setup_broadcast_step st).parameters_broadcasted h = none ∨
        (h ∈ HH ∧ h ≠ SK ∧ MM h ≠ [] ∧
          (l.foldl setup_broadcast_step st).parameters_broadcasted h
            = some true) := by
  intro l
  induction l with
  | nil => intro st _ _ _ hP h; exact hP h
  | cons a t ih =>
    intro st hsink hmm hsub hP h
    rw [List.foldl_cons]
    obtain ⟨e1, pb1, h1⟩ := setup_broadcast_step_shape st a
    refine ih (setup_broadcast_step st a) (by rw [h1]; exact hsink)
      (by rw [h1]; exact hmm)
      (fun x hx => hsub x (List.mem_cons_of_mem a hx)) ?_ h
    intro h2
    unfold setup_broadcast_step
    split
    · rename_i hg
      by_cases hmem : st.clusterMembers a = []
      · rw [broadcast_empty hmem]
        exact hP h2
      · by_cases hq : h2 = a
        · subst hq
          right
          refine ⟨hsub h2 (List.mem_cons_self h2 t), ?_, ?_,
            broadcast_pb_self hmem⟩
          · intro hc
            exact hg.1 (hc.trans hsink.symm)
          · rw [← hmm]
            exact hmem
        · rw [broadcast_pb_of_ne hq]
          exact hP h2
    · exact hP h2

lemma setup_fold_pb_complete (RD : RadioModel)
    (hcrb : ∀ sz, 0 ≤ RD.costRecvBroadcast sz)
    (hcb : ∀ sz k, 0 ≤ RD.costBroadcast sz k)
    (SK : Node) (MM : Node → List Node) :
    ∀ (l : List Node) (st : APTEEN), st.sink = SK → st.clusterMembers = MM →
      st.radio = RD →
      ∀ h, h ∈ l → h ≠ SK → MM h ≠ [] →
        0 < (l.foldl setup_broadcast_step st).energy h →
        (l.foldl setup_broadcast_step st).parameters_broadcasted h
          = some true := by
  intro l
  induction l with
  | nil =>
    intro st _ _ _ h hl
    cases hl
  | cons a t ih =>
    intro st hsink hmm hrad h hl hne hmem hpos
    rw [List.foldl_cons] at hpos ⊢
    obtain ⟨e1, pb1, h1⟩ := setup_broadcast_step_shape st a
    have hsink2 : (setup_broadcast_step st a).sink = SK := by rw [h1]; exact hsink
    have hmm2 : (setup_broadcast_step st a).clusterMembers = MM := by
      rw [h1]; exact hmm
    have hrad2 : (setup_broadcast_step st a).radio = RD := by rw [h1]; exact hrad
    by_cases hha : h = a
    · subst hha
      have hle1 : (t.foldl setup_broadcast_step (setup_broadcast_step st h)).energy h
          ≤ (setup_broadcast_step st h).energy h :=
        setup_fold_energy_le RD hcrb hcb t _ hrad2 h
      have hle2 : (setup_broadcast_step st h).energy h ≤ st.energy h :=
        setup_step_energy_le RD hcrb hcb st h hrad h
      have halive : 0 < st.energy h := lt_of_lt_of_le hpos (hle1.trans hle2)
      have hstep : (setup_broadcast_step st h).parameters_broadcasted h
          = some true := by
        unfold setup_broadcast_step
        rw [if_pos ⟨(by intro hc; exact hne (hc.trans hsink)),
          decide_eq_true halive⟩]
        exact broadcast_pb_self (by rw [hmm]; exact hmem)
      exact setup_fold_pb_mono t _ h hstep
    · have hl2 : h ∈ t := by
        rcases List.mem_cons.mp hl with hcase | hcase
        · exact absurd hcase hha
        · exact hcase
      exact ih (setup_broadcast_step st a) hsink2 hmm2 hrad2 h hl2 hne hmem hpos

lemma set_up_phase_eq (s : APTEEN) (newHeads : List Node)
    (newMembers : Node → List Node) :
    set_up_phase s newHeads newMembers =
      newHeads.foldl setup_broadcast_step
        { s with clusterHeads := newHeads, clusterMembers := newMembers } := rfl

/-- **C3 (amended).** `update_parameters_from_query` overwrites exactly the
global defaults whose arguments are provided, clears every entry of
`parameters_broadcasted`, and charges every alive non-sink cluster head one
control-message receive cost.  The next setup phase then re-populates
`parameters_broadcasted` as follows (assuming the physical cost model, i.e.
nonnegative control costs): every entry present belongs to a non-sink new
cluster head with a non-empty member list and holds the value `true`, and
conversely every non-sink new head with a non-empty member list that is
still alive at the end of the setup phase has its entry — but a head whose
member list is empty is skipped by `broadcast_teen_parameters` and gets no
entry. -/
theorem c3_query_invalidation_and_setup (s : APTEEN) (o1 o2 : Option ℚ)
    (o3 : Option ℤ) (newHeads : List Node) (newMembers : Node → List Node)
    (hnd : s.clusterHeads.Nodup)
    (hcrb : ∀ sz, 0 ≤ s.radio.costRecvBroadcast sz)
    (hcb : ∀ sz k, 0 ≤ s.radio.costBroadcast sz k) :
    ((update_parameters_from_query s o1 o2 o3).hard_threshold
        = o1.getD s.hard_threshold ∧
     (update_parameters_from_query s o1 o2 o3).soft_threshold
        = o2.getD s.soft_threshold ∧
     (update_parameters_from_query s o1 o2 o3).count_time
        = o3.getD s.count_time) ∧
    (∀ h, (update_parameters_from_query s o1 o2 o3).parameters_broadcasted h
        = none) ∧
    (∀ h, h ∈ s.clusterHeads → h ≠ s.sink → 0 < s.energy h →
      (update_parameters_from_query s o1 o2 o3).energy h
        = clamp0 (s.energy h - s.radio.costRecvBroadcast s.size_control)) ∧
    (∀ h, (set_up_phase (update_parameters_from_query s o1 o2 o3) newHeads
        newMembers).parameters_broadcasted h ≠ none →
      h ∈ newHeads ∧ h ≠ s.sink ∧ newMembers h ≠ [] ∧
        (set_up_phase (update_parameters_from_query s o1 o2 o3) newHeads
          newMembers).parameters_broadcasted h = some true) ∧
    (∀ h, h ∈ newHeads → h ≠ s.sink → newMembers h ≠ [] →
      0 < (set_up_phase (update_parameters_from_query s o1 o2 o3) newHeads
        newMembers).energy h →
      (set_up_phase (update_parameters_from_query s o1 o2 o3) newHeads
        newMembers).parameters_broadcasted h = some true) := by
  obtain ⟨e, hQ⟩ := query_result_shape s o1 o2 o3
  have hsound := setup_fold_pb_sound s.sink newMembers newHeads newHeads
    { update_parameters_from_query s o1 o2 o3 with
      clusterHeads := newHeads, clusterMembers := newMembers }
    (by rw [hQ]) rfl (fun x hx => hx)
    (fun h => Or.inl (by rw [hQ]))
  have hcomplete := setup_fold_pb_complete s.radio hcrb hcb s.sink newMembers
    newHeads
    { update_parameters_from_query s o1 o2 o3 with
      clusterHeads := newHeads, clusterMembers := newMembers }
    (by rw [hQ]) rfl (by rw [hQ])
  refine ⟨⟨by rw [hQ], by rw [hQ], by rw [hQ]⟩, fun h => by rw [hQ], ?_, ?_, ?_⟩
  · intro h hmem hsink halive
    rw [query_result_energy s o1 o2 o3 hnd h, if_pos ⟨hmem, hsink, halive⟩]
  · intro h hne
    rw [set_up_phase_eq] at hne
    rcases hsound h with hnone | hgood
    · exact absurd hnone hne
    · rw [set_up_phase_eq]
      exact hgood
  · intro h hmem hsink hmm hpos
    rw [set_up_phase_eq] at hpos
    rw [set_up_phase_eq]
    exact hcomplete h hmem hsink hmm hpos

/-- Counterexample to C3 as stated: after a query, a setup phase in which
node `1` becomes an alive non-sink cluster head with an **empty** member
list leaves `parameters_broadcasted` without any entry for `1` — the claimed
"exactly one entry per alive, non-sink cluster head" fails on heads with no
members, because `broadcast_teen_parameters` is a no-op when the member list
is empty. -/
theorem c3_repopulation_counterexample :
    (set_up_phase (update_parameters_from_query W (some 30) none none) [1]
        (fun _ => [])).parameters_broadcasted 1 = none ∧
    (set_up_phase (update_parameters_from_query W (some 30) none none) [1]
        (fun _ => [])).clusterHeads = [1] ∧
    (set_up_phase (update_parameters_from_query W (some 30) none none) [1]
        (fun _ => [])).sink = 0 ∧
    0 < (set_up_phase (update_parameters_from_query W (some 30) none none) [1]
        (fun _ => [])).energy 1 := by
  obtain ⟨e, hQ⟩ := query_result_shape W (some 30) none none
  have hQe : (update_parameters_from_query W (some 30) none none).energy 1
      = 1 := by
    rw [query_result_energy W (some 30) none none (by decide) 1,
      if_pos ⟨by decide, by decide, by decide⟩]
    norm_num [clamp0, W, zeroRadio]
  have hsink0 : ({ update_parameters_from_query W (some 30) none none with
      clusterHeads := [1], clusterMembers := fun _ => [] } : APTEEN).sink
        = 0 := by
    rw [hQ]
    rfl
  have halive : (0:ℚ) < ({ update_parameters_from_query W (some 30) none none with
      clusterHeads := [1], clusterMembers := fun _ => [] } : APTEEN).energy 1 := by
    show (0:ℚ) < (update_parameters_from_query W (some 30) none none).energy 1
    rw [hQe]
    norm_num
  have hstep : set_up_phase (update_parameters_from_query W (some 30) none none)
      [1] (fun _ => []) =
      { update_parameters_from_query W (some 30) none none with
        clusterHeads := [1], clusterMembers := fun _ => [] } := by
    rw [set_up_phase_eq, List.foldl_cons, List.foldl_nil]
    unfold setup_broadcast_step
    rw [if_pos ⟨by rw [hsink0]; decide, decide_eq_true halive⟩]
    exact broadcast_empty rfl
  refine ⟨?_, ?_, ?_, ?_⟩
  · rw [hstep]
    show (update_parameters_from_query W (some 30) none none).parameters_broadcasted 1
      = none
    rw [hQ]
  · rw [hstep]
  · rw [hstep, hsink0]
  · rw [hstep]
    exact halive

/-- Witness for the amended C3 at `W` (zero-cost radio): the query with
`hard_threshold = 30` updates exactly that global, clears the broadcast
flags, and the next setup with head `1` over member `2` re-populates
exactly the entry of `1`. -/
theorem c3_query_invalidation_and_setup_witness :
    (update_parameters_from_query W (some 30) none none).hard_threshold = 30 ∧
    (update_parameters_from_query W (some 30) none none).soft_threshold = 2 ∧
    (update_parameters_from_query W (some 30) none none).parameters_broadcasted 1
      = none := by
  have h := c3_query_invalidation_and_setup W (some 30) none none [1]
    (fun n => if n = 1 then [2] else []) (by decide)
    (fun sz => le_refl 0) (fun sz k => le_refl 0)
  exact ⟨h.1.1, h.1.2.1, h.2.1 1⟩

/-! ### C6: the Count-Time forced periodic transmission -/

lemma debit_zero (s : APTEEN) (n : Node) : debit s n 0 = s := by
  unfold debit
  split
  · rename_i h
    have he : (fun m => if m = n then clamp0 (s.energy n - 0) else s.energy m)
        = s.energy := by
      funext m
      by_cases hm : m = n
      · subst hm
        rw [if_pos rfl, sub_zero]
        unfold clamp0
        rw [if_neg (not_lt.mpr (le_of_lt h))]
      · rw [if_neg hm]
    rw [he]
  · rfl

lemma gather_succ (fuel : Nat) (s : APTEEN) (head : Node) (size : ℚ) :
    recursive_gathering_with_teen (fuel + 1) s head size =
      (if (gatherFold (recursive_gathering_with_teen fuel) head size
            (s.clusterMembers head)
            (s, 0, if head ≠ s.sink then size else 0, false)).2.2.2 = true ∨
          0 < (gatherFold (recursive_gathering_with_teen fuel) head size
            (s.clusterMembers head)
            (s, 0, if head ≠ s.sink then size else 0, false)).2.2.1 then
        ((aggregation (gatherFold (recursive_gathering_with_teen fuel) head size
            (s.clusterMembers head)
            (s, 0, if head ≠ s.sink then size else 0, false)).1 head
            (gatherFold (recursive_gathering_with_teen fuel) head size
              (s.clusterMembers head)
              (s, 0, if head ≠ s.sink then size else 0, false)).2.2.1).1,
          (aggregation (gatherFold (recursive_gathering_with_teen fuel) head size
            (s.clusterMembers head)
            (s, 0, if head ≠ s.sink then size else 0, false)).1 head
            (gatherFold (recursive_gathering_with_teen fuel) head size
              (s.clusterMembers head)
              (s, 0, if head ≠ s.sink then size else 0, false)).2.2.1).2 +
          (gatherFold (recursive_gathering_with_teen fuel) head size
            (s.clusterMembers head)
            (s, 0, if head ≠ s.sink then size else 0, false)).2.1, true)
      else ((gatherFold (recursive_gathering_with_teen fuel) head size
          (s.clusterMembers head)
          (s, 0, if head ≠ s.sink then size else 0, false)).1, 0, false)) := rfl

/-- Sensing over the two-node population `[1, 2]` with both nodes alive. -/
lemma c6_sense (T : APTEEN) (hns : T.nonSinks = [1, 2])
    (he1 : 0 < T.energy 1) (he2 : 0 < T.energy 2) :
    sense_phase T = { T with
      last_values := fun m =>
        if m = 2 then some (T.data_generator 2 T.round)
        else if m = 1 then some (T.data_generator 1 T.round)
        else T.last_values m,
      rounds_since_transmission := fun m =>
        if m = 2 then T.rounds_since_transmission 2 + 1
        else if m = 1 then T.rounds_since_transmission 1 + 1
        else T.rounds_since_transmission m } := by
  have halive : alive_non_sinks T = [1, 2] := by
    unfold alive_non_sinks
    rw [hns]
    have h1 : is_alive T 1 = true := decide_eq_true he1
    have h2 : is_alive T 2 = true := decide_eq_true he2
    simp [List.filter, h1, h2]
  unfold sense_phase
  rw [halive, List.foldl_cons, List.foldl_cons, List.foldl_nil]
  rfl

/-- Parameter resolution and decision for member `2` of head `1` with no
override: `should_transmit` reduces to the Count-Time test when the value
clears `HT` and the change stays below `ST`. -/
lemma c6_decision (T : APTEEN) (v w : ℚ)
    (hheads : T.clusterHeads = [1]) (hm1 : T.clusterMembers 1 = [2])
    (hcp : T.cluster_parameters 1 = none)
    (hht : T.hard_threshold ≤ v)
    (hlt : T.last_transmission 2 = some w)
    (hst : |v - w| < T.soft_threshold) :
    should_transmit T 2 v
      = decide (T.count_time ≤ T.rounds_since_transmission 2) := by
  have hp : get_parameters_for_node T 2
      = (T.hard_threshold, T.soft_threshold, T.count_time) := by
    have hfind : List.find?
        (fun head => decide ((2:Node) ∈ T.clusterMembers head)) [1]
          = some 1 := by
      have hpred : decide ((2:Node) ∈ T.clusterMembers 1) = true := by
        rw [hm1]
        decide
      simp [List.find?, hpred]
    unfold get_parameters_for_node
    rw [hheads]
    simp [hfind, hcp]
  unfold should_transmit
  rw [hp]
  dsimp only
  rw [if_neg (not_lt.mpr hht), hlt]
  dsimp only
  rw [if_neg (not_le.mpr hst)]
  by_cases hc : T.count_time ≤ T.rounds_since_transmission 2
  · rw [if_pos hc, decide_eq_true hc]
  · rw [if_neg hc, decide_eq_false hc]

/-- A withhold round at the two-level topology sink `0` → head `1` →
member `2`, cost-free radio: when member `2` decides not to transmit, the
gathering pass returns with the state completely unchanged (the head still
relays its own payload, but every debit is zero). -/
lemma c6_gather_withhold (f : Nat) (T : APTEEN) (size v : ℚ)
    (hsink : T.sink = 0) (hheads : T.clusterHeads = [1])
    (hm0 : T.clusterMembers 0 = [1]) (hm1 : T.clusterMembers 1 = [2])
    (he1 : 0 < T.energy 1) (he2 : 0 < T.energy 2)
    (hzsc : ∀ sz a b, T.radio.costSinglecast sz a b = 0)
    (hza : T.energy_agg = 0)
    (hsize : 0 < size)
    (hlv : T.last_values 2 = some v)
    (hdec : should_transmit T 2 v = false) :
    (recursive_gathering_with_teen (f + 2) T 0 size).1 = T := by
  have hch2 : is_cluster_head T 2 = false := by
    unfold is_cluster_head
    rw [hheads]
    decide
  have hch1 : is_cluster_head T 1 = true := by
    unfold is_cluster_head
    rw [hheads]
    decide
  have hinner : recursive_gathering_with_teen (f + 1) T 1 size
      = (T, T.agg_rate * size + 0, true) := by
    rw [gather_succ, hm1]
    rw [if_pos (show (1:Node) ≠ T.sink by rw [hsink]; decide)]
    have hfold : gatherFold (recursive_gathering_with_teen f) 1 size [2]
        (T, 0, size, false) = (T, 0, size, false) := by
      unfold gatherFold
      rw [List.foldl_cons, List.foldl_nil]
      unfold gather_member_step
      dsimp only
      rw [if_pos (show is_alive T 2 = true from decide_eq_true he2), hch2]
      simp [hlv, hdec]
    rw [hfold]
    dsimp only
    rw [if_pos (Or.inr hsize : false = true ∨ 0 < size)]
    unfold aggregation
    dsimp only
    rw [hza, zero_mul, debit_zero]
  rw [gather_succ, hm0]
  rw [if_neg (show ¬ (0:Node) ≠ T.sink from fun hc => hc hsink.symm)]
  have hfold0 : gatherFold (recursive_gathering_with_teen (f + 1)) 0 size [1]
      (T, 0, 0, false) = (T, 0 + (T.agg_rate * size + 0), 0, true) := by
    unfold gatherFold
    rw [List.foldl_cons, List.foldl_nil]
    unfold gather_member_step
    dsimp only
    rw [if_pos (show is_alive T 1 = true from decide_eq_true he1), hch1,
      if_pos rfl]
    rw [hinner]
    dsimp only
    rw [if_pos rfl]
    rw [singlecast_eq, hzsc, debit_zero]
  rw [hfold0]
  dsimp only
  rw [if_pos (Or.inl rfl : true = true ∨ 0 < (0:ℚ))]
  unfold aggregation
  dsimp only
  rw [hza, zero_mul, debit_zero]

/-- A transmit round at the same topology: when member `2` decides to
transmit the sensed value `v`, the pass records `v` as the member's last
transmission, resets its withhold counter, and (with the cost-free radio)
changes nothing else. -/
lemma c6_gather_transmit (f : Nat) (T : APTEEN) (size v : ℚ)
    (hsink : T.sink = 0) (hheads : T.clusterHeads = [1])
    (hm0 : T.clusterMembers 0 = [1]) (hm1 : T.clusterMembers 1 = [2])
    (he1 : 0 < T.energy 1) (he2 : 0 < T.energy 2)
    (hzsc : ∀ sz a b, T.radio.costSinglecast sz a b = 0)
    (hza : T.energy_agg = 0)
    (_hsize : 0 < size)
    (hlv : T.last_values 2 = some v)
    (hdec : should_transmit T 2 v = true) :
    (recursive_gathering_with_teen (f + 2) T 0 size).1 =
      { T with
        last_transmission := fun m =>
          if m = 2 then some v else T.last_transmission m,
        rounds_since_transmission := fun m =>
          if m = 2 then 0 else T.rounds_since_transmission m } := by
  have hch2 : is_cluster_head T 2 = false := by
    unfold is_cluster_head
    rw [hheads]
    decide
  have hch1 : is_cluster_head T 1 = true := by
    unfold is_cluster_head
    rw [hheads]
    decide
  have hT2 : ∀ m, ({ T with
        last_transmission := fun m =>
          if m = 2 then some v else T.last_transmission m,
        rounds_since_transmission := fun m =>
          if m = 2 then 0 else T.rounds_since_transmission m } : APTEEN).energy m
      = T.energy m := fun m => rfl
  have hinner : recursive_gathering_with_teen (f + 1) T 1 size
      = ({ T with
            last_transmission := fun m =>
              if m = 2 then some v else T.last_transmission m,
            rounds_since_transmission := fun m =>
              if m = 2 then 0 else T.rounds_since_transmission m },
          T.agg_rate * (size + size) + 0, true) := by
    rw [gather_succ, hm1]
    rw [if_pos (show (1:Node) ≠ T.sink by rw [hsink]; decide)]
    have hfold : gatherFold (recursive_gathering_with_teen f) 1 size [2]
        (T, 0, size, false) =
        ({ T with
            last_transmission := fun m =>
              if m = 2 then some v else T.last_transmission m,
            rounds_since_transmission := fun m =>
              if m = 2 then 0 else T.rounds_since_transmission m },
          0, size + size, true) := by
      unfold gatherFold
      rw [List.foldl_cons, List.foldl_nil]
      unfold gather_member_step
      dsimp only
      rw [if_pos (show is_alive T 2 = true from decide_eq_true he2), hch2]
      simp only [Bool.false_eq_true, if_false]
      simp only [hlv]
      simp only [hdec, if_true]
      simp only [singlecast_eq, hzsc, debit_zero]
    rw [hfold]
    dsimp only
    rw [if_pos (Or.inl rfl : true = true ∨ 0 < size + size)]
    unfold aggregation
    dsimp only
    rw [show ({ T with
        last_transmission := fun m =>
          if m = 2 then some v else T.last_transmission m,
        rounds_since_transmission := fun m =>
          if m = 2 then 0 else T.rounds_since_transmission m } : APTEEN).energy_agg
      = T.energy_agg from rfl, hza, zero_mul, debit_zero]
  rw [gather_succ, hm0]
  rw [if_neg (show ¬ (0:Node) ≠ T.sink from fun hc => hc hsink.symm)]
  have hfold0 : gatherFold (recursive_gathering_with_teen (f + 1)) 0 size [1]
      (T, 0, 0, false) =
      ({ T with
          last_transmission := fun m =>
            if m = 2 then some v else T.last_transmission m,
          rounds_since_transmission := fun m =>
            if m = 2 then 0 else T.rounds_since_transmission m },
        0 + (T.agg_rate * (size + size) + 0), 0, true) := by
    unfold gatherFold
    rw [List.foldl_cons, List.foldl_nil]
    unfold gather_member_step
    dsimp only
    rw [if_pos (show is_alive T 1 = true from decide_eq_true he1), hch1,
      if_pos rfl]
    rw [hinner]
    dsimp only
    rw [if_pos rfl]
    rw [singlecast_eq]
    rw [show ({ T with
        last_transmission := fun m =>
          if m = 2 then some v else T.last_transmission m,
        rounds_since_transmission := fun m =>
          if m = 2 then 0 else T.rounds_since_transmission m } : APTEEN).radio
      = T.radio from rfl, hzsc, debit_zero]
  rw [hfold0]
  dsimp only
  rw [if_pos (Or.inl rfl : true = true ∨ 0 < (0:ℚ))]
  unfold aggregation
  dsimp only
  rw [show ({ T with
      last_transmission := fun m =>
        if m = 2 then some v else T.last_transmission m,
      rounds_since_transmission := fun m =>
        if m = 2 then 0 else T.rounds_since_transmission m } : APTEEN).energy_agg
    = T.energy_agg from rfl, hza, zero_mul, debit_zero]

/-- **C6.** In the two-level network sink `0` → head `1` → member `2` with a
cost-free radio, for a member whose sensed value stays constant at `v ≥ HT`
with `|v - w| < ST` against its last transmitted value `w`: iterating the
round step from a fresh transmission (`rounds_since_transmission 2 = 0`)
increments the counter once per withheld round (`last_transmission` stays
`w` and the counter equals `k` after `k < TC` rounds), and on round `TC`
exactly, the decision sees the counter reach `TC`, the member transmits the
sensed value, and the counter resets to `0`. -/
theorem c6_count_time_forces_transmission (fuel : Nat) (s : APTEEN)
    (v w : ℚ) (tc : ℤ) (k : Nat)
    (hsink : s.sink = 0) (hns : s.nonSinks = [1, 2])
    (hheads : s.clusterHeads = [1])
    (hm0 : s.clusterMembers 0 = [1]) (hm1 : s.clusterMembers 1 = [2])
    (hcp : s.cluster_parameters 1 = none)
    (he1 : 0 < s.energy 1) (he2 : 0 < s.energy 2)
    (hzsc : ∀ sz a b, s.radio.costSinglecast sz a b = 0)
    (hza : s.energy_agg = 0) (hsd : 0 < s.size_data)
    (hgen : ∀ r, s.data_generator 2 r = v)
    (hht : s.hard_threshold ≤ v)
    (hst : |v - w| < s.soft_threshold)
    (htc : s.count_time = tc) (htc1 : 1 ≤ tc)
    (hlt : s.last_transmission 2 = some w)
    (hrs : s.rounds_since_transmission 2 = 0)
    (hk1 : 1 ≤ k) :
    ((k : ℤ) < tc →
      ((steady_state_phase (fuel + 2))^[k] s).last_transmission 2 = some w ∧
      ((steady_state_phase (fuel + 2))^[k] s).rounds_since_transmission 2
        = (k : ℤ)) ∧
    ((k : ℤ) = tc →
      ((steady_state_phase (fuel + 2))^[k] s).last_transmission 2 = some v ∧
      ((steady_state_phase (fuel + 2))^[k] s).rounds_since_transmission 2
        = 0) := by
  have key : ∀ j : Nat, (j : ℤ) ≤ tc →
      ((steady_state_phase (fuel + 2))^[j] s).sink = 0 ∧
      ((steady_state_phase (fuel + 2))^[j] s).nonSinks = [1, 2] ∧
      ((steady_state_phase (fuel + 2))^[j] s).clusterHeads = [1] ∧
      ((steady_state_phase (fuel + 2))^[j] s).clusterMembers 0 = [1] ∧
      ((steady_state_phase (fuel + 2))^[j] s).clusterMembers 1 = [2] ∧
      ((steady_state_phase (fuel + 2))^[j] s).cluster_parameters 1 = none ∧
      ((steady_state_phase (fuel + 2))^[j] s).energy = s.energy ∧
      ((steady_state_phase (fuel + 2))^[j] s).radio = s.radio ∧
      ((steady_state_phase (fuel + 2))^[j] s).energy_agg = 0 ∧
      ((steady_state_phase (fuel + 2))^[j] s).size_data = s.size_data ∧
      ((steady_state_phase (fuel + 2))^[j] s).hard_threshold
        = s.hard_threshold ∧
      ((steady_state_phase (fuel + 2))^[j] s).soft_threshold
        = s.soft_threshold ∧
      ((steady_state_phase (fuel + 2))^[j] s).count_time = tc ∧
      ((steady_state_phase (fuel + 2))^[j] s).data_generator
        = s.data_generator ∧
      ((steady_state_phase (fuel + 2))^[j] s).round = s.round ∧
      (j = 0 →
        ((steady_state_phase (fuel + 2))^[j] s).last_transmission 2 = some w ∧
        ((steady_state_phase (fuel + 2))^[j] s).rounds_since_transmission 2
          = 0) ∧
      (1 ≤ j → (j : ℤ) < tc →
        ((steady_state_phase (fuel + 2))^[j] s).last_transmission 2 = some w ∧
        ((steady_state_phase (fuel + 2))^[j] s).rounds_since_transmission 2
          = (j : ℤ)) ∧
      (1 ≤ j → (j : ℤ) = tc →
        ((steady_state_phase (fuel + 2))^[j] s).last_transmission 2 = some v ∧
        ((steady_state_phase (fuel + 2))^[j] s).rounds_since_transmission 2
          = 0) := by
    intro j
    induction j with
    | zero =>
      intro _
      rw [Function.iterate_zero_apply]
      refine ⟨hsink, hns, hheads, hm0, hm1, hcp, rfl, rfl, hza, rfl, rfl, rfl,
        htc, rfl, rfl, fun _ => ⟨hlt, hrs⟩, fun hj => absurd hj (by omega),
        fun hj => absurd hj (by omega)⟩
    | succ j ihj =>
      intro hle
      have hjle : (j : ℤ) ≤ tc := by push_cast at hle ⊢; omega
      obtain ⟨A1, A2, A3, A4, A5, A6, A7, A8, A9, A10, A11, A12, A13, A14,
        A15, B1, B2, B3⟩ := ihj hjle
      set T := (steady_state_phase (fuel + 2))^[j] s with hT
      have hTtrack : T.last_transmission 2 = some w ∧
          T.rounds_since_transmission 2 = (j : ℤ) := by
        rcases Nat.eq_zero_or_pos j with hj0 | hj1
        · subst hj0
          exact ⟨(B1 rfl).1, by rw [(B1 rfl).2]; rfl⟩
        · have hjlt : (j : ℤ) < tc := by push_cast at hle; omega
          exact B2 hj1 hjlt
      have he1T : 0 < T.energy 1 := by rw [A7]; exact he1
      have he2T : 0 < T.energy 2 := by rw [A7]; exact he2
      have hT2eq := c6_sense T A2 he1T he2T
      have hiter : (steady_state_phase (fuel + 2))^[j + 1] s
          = steady_state_phase (fuel + 2) T := by
        rw [Function.iterate_succ_apply']
      have hne : ¬ T.clusterHeads = [] := by
        rw [A3]
        exact List.cons_ne_nil 1 []
      have hstep : steady_state_phase (fuel + 2) T =
          (recursive_gathering_with_teen (fuel + 2) (sense_phase T) 0
            T.size_data).1 := by
        unfold steady_state_phase
        rw [if_neg hne, A1]
      -- facts about the sensed state
      have hS1 : (sense_phase T).sink = 0 := by rw [hT2eq]; exact A1
      have hS3 : (sense_phase T).clusterHeads = [1] := by rw [hT2eq]; exact A3
      have hS4 : (sense_phase T).clusterMembers 0 = [1] := by
        rw [hT2eq]; exact A4
      have hS5 : (sense_phase T).clusterMembers 1 = [2] := by
        rw [hT2eq]; exact A5
      have hS6 : (sense_phase T).cluster_parameters 1 = none := by
        rw [hT2eq]; exact A6
      have hSe1 : 0 < (sense_phase T).energy 1 := by rw [hT2eq]; exact he1T
      have hSe2 : 0 < (sense_phase T).energy 2 := by rw [hT2eq]; exact he2T
      have hSzsc : ∀ sz a b,
          (sense_phase T).radio.costSinglecast sz a b = 0 := by
        intro sz a b
        rw [hT2eq]
        show T.radio.costSinglecast sz a b = 0
        rw [A8]
        exact hzsc sz a b
      have hSza : (sense_phase T).energy_agg = 0 := by rw [hT2eq]; exact A9
      have hSsd : 0 < T.size_data := by rw [A10]; exact hsd
      have hSlv : (sense_phase T).last_values 2 = some v := by
        rw [hT2eq]
        show (if (2:Node) = 2 then some (T.data_generator 2 T.round)
          else if (2:Node) = 1 then some (T.data_generator 1 T.round)
          else T.last_values 2) = some v
        rw [if_pos rfl, A14, A15, hgen s.round]
      have hSlt : (sense_phase T).last_transmission 2 = some w := by
        rw [hT2eq]
        exact hTtrack.1
      have hSrst : (sense_phase T).rounds_since_transmission 2
          = (j : ℤ) + 1 := by
        rw [hT2eq]
        show (if (2:Node) = 2 then T.rounds_since_transmission 2 + 1
          else if (2:Node) = 1 then T.rounds_since_transmission 1 + 1
          else T.rounds_since_transmission 2) = (j : ℤ) + 1
        rw [if_pos rfl, hTtrack.2]
      have hSht : (sense_phase T).hard_threshold ≤ v := by
        rw [hT2eq]
        show T.hard_threshold ≤ v
        rw [A11]
        exact hht
      have hSst : |v - w| < (sense_phase T).soft_threshold := by
        rw [hT2eq]
        show |v - w| < T.soft_threshold
        rw [A12]
        exact hst
      have hStc : (sense_phase T).count_time = tc := by rw [hT2eq]; exact A13
      have hdec := c6_decision (sense_phase T) v w hS3 hS5 hS6 hSht hSlt hSst
      rw [hStc, hSrst] at hdec
      by_cases hcase : ((j : ℤ) + 1) < tc
      · -- withhold round
        have hdecf : should_transmit (sense_phase T) 2 v = false := by
          rw [hdec]
          exact decide_eq_false (by omega)
        have hgw := c6_gather_withhold fuel (sense_phase T) T.size_data v
          hS1 hS3 hS4 hS5 hSe1 hSe2 hSzsc hSza hSsd hSlv hdecf
        have hnext : (steady_state_phase (fuel + 2))^[j + 1] s
            = sense_phase T := by
          rw [hiter, hstep, hgw]
        rw [hnext]
        refine ⟨hS1, by rw [hT2eq]; exact A2, hS3, hS4, hS5, hS6,
          by rw [hT2eq]; exact A7, by rw [hT2eq]; exact A8, hSza,
          by rw [hT2eq]; exact A10, by rw [hT2eq]; exact A11,
          by rw [hT2eq]; exact A12, hStc, by rw [hT2eq]; exact A14,
          by rw [hT2eq]; exact A15, fun hj0 => absurd hj0 (by omega),
          fun _ _ => ⟨hSlt, by rw [hSrst]; push_cast; ring⟩,
          fun _ hj1 => absurd hj1 (by omega)⟩
      · -- transmit round: the counter has reached TC
        have hjeq : (j : ℤ) + 1 = tc := by omega
        have hdect : should_transmit (sense_phase T) 2 v = true := by
          rw [hdec]
          exact decide_eq_true (by omega)
        have hgt := c6_gather_transmit fuel (sense_phase T) T.size_data v
          hS1 hS3 hS4 hS5 hSe1 hSe2 hSzsc hSza hSsd hSlv hdect
        have hnext : (steady_state_phase (fuel + 2))^[j + 1] s
            = { sense_phase T with
                last_transmission := fun m =>
                  if m = 2 then some v
                  else (sense_phase T).last_transmission m,
                rounds_since_transmission := fun m =>
                  if m = 2 then 0
                  else (sense_phase T).rounds_since_transmission m } := by
          rw [hiter, hstep, hgt]
        rw [hnext]
        refine ⟨hS1, by rw [hT2eq]; exact A2, hS3, hS4, hS5, hS6,
          by rw [hT2eq]; exact A7, by rw [hT2eq]; exact A8, hSza,
          by rw [hT2eq]; exact A10, by rw [hT2eq]; exact A11,
          by rw [hT2eq]; exact A12, hStc, by rw [hT2eq]; exact A14,
          by rw [hT2eq]; exact A15, fun hj0 => absurd hj0 (by omega),
          fun _ hj1 => absurd hj1 (by omega), fun _ _ => ⟨?_, ?_⟩⟩
        · show (if (2:Node) = 2 then some v
            else (sense_phase T).last_transmission 2) = some v
          rw [if_pos rfl]
        · show (if (2:Node) = 2 then (0:ℤ)
            else (sense_phase T).rounds_since_transmission 2) = 0
          rw [if_pos rfl]
  constructor
  · intro hklt
    exact (key k (le_of_lt hklt)).2.2.2.2.2.2.2.2.2.2.2.2.2.2.2.2.1 hk1 hklt
  · intro hkeq
    exact (key k (le_of_eq hkeq)).2.2.2.2.2.2.2.2.2.2.2.2.2.2.2.2.2 hk1 hkeq

/-- The C6 witness network: `W` with `ST = 10`, `TC = 3`, member `2` having
last transmitted `56` while constantly sensing `55` (change `1 < ST`,
value `≥ HT = 50`). -/
def W6 : APTEEN :=
  { W with soft_threshold := 10, count_time := 3,
           last_transmission := fun n => if n = 2 then some 56 else none }

/-- Witness for C6 at `W6`: after exactly `TC = 3` rounds the member
transmits the sensed value `55` and its counter resets to `0`. -/
theorem c6_count_time_forces_transmission_witness :
    ((steady_state_phase 2)^[3] W6).last_transmission 2 = some 55 ∧
    ((steady_state_phase 2)^[3] W6).rounds_since_transmission 2 = 0 := by
  have h := c6_count_time_forces_transmission 0 W6 55 56 3 3 (by decide)
    (by decide) (by decide) (by decide) (by decide) (by decide) (by decide)
    (by decide) (fun sz a b => rfl) (by decide) (by decide) (fun r => rfl)
    (by decide)
    (by
      show |(55:ℚ) - 56| < 10
      rw [show (55:ℚ) - 56 = -1 by norm_num, abs_neg, abs_one]
      norm_num)
    (by decide) (by decide) (by decide) (by decide) (by decide)
  exact h.2 (by decide)

end Router
